import Mathlib

/-!
Shallow embedding of an RTP packet-to-frame reassembly pipeline:
the transport packet parser, the per-codec payload depacketizers
(AVC, HEVC, VP9, AV1), the codec guesser, the frame-boundary analyzer
and the frame reassembler, together with theorems about them.

Bytes are modelled as natural numbers; every read of a byte from a
buffer goes through `byteAt`, which reduces modulo 256 (the u8 type
invariant of the source).
-/

/-- Read the byte at index `i` of a buffer, 0 when out of range; bytes are values mod 256. -/
def byteAt (buf : List Nat) (i : Nat) : Nat := buf.getD i 0 % 256

/-- Big-endian composition of two bytes (u16::from_be_bytes). -/
def be16 (a b : Nat) : Nat := a * 256 + b

/-- Big-endian composition of four bytes (u32::from_be_bytes). -/
def be32 (a b c d : Nat) : Nat := ((a * 256 + b) * 256 + c) * 256 + d

/-- Last byte of a buffer (buf.last().unwrap() in the source), as a u8 value. -/
def lastByte (buf : List Nat) : Nat := (buf.getLast?).getD 0 % 256

/-- The contiguous slice buf[a..b] of a byte buffer. -/
def extract (buf : List Nat) (a b : Nat) : List Nat := (buf.take b).drop a

/-- Wrapping subtraction on 16-bit values: (a - b) mod 2^16 (u16::wrapping_sub). -/
def wrapSub16 (a b : Nat) : Nat := (a % 65536 + 65536 - b % 65536) % 65536

/-- Boolean test that an Except value is ok. -/
def isOkE {ε α : Type} : Except ε α → Bool
  | .ok _ => true
  | .error _ => false

/-- Errors of the transport packet parser (rtp.rs RtpError). -/
inductive RtpError where
  | BufferTooShort
  | InvalidVersion (v : Nat)
  | InvalidExtensionLength
deriving Repr, DecidableEq

/-- Located header extension (rtp.rs RtpExtension). -/
structure RtpExtension where
  profile : Nat
  length_words : Nat
  data_offset : Nat
  data_len : Nat
deriving Repr, DecidableEq

/-- Parsed transport header (rtp.rs RtpHeader). -/
structure RtpHeader where
  version : Nat
  padding : Bool
  extension : Bool
  csrc_count : Nat
  marker : Bool
  payload_type : Nat
  sequence_number : Nat
  timestamp : Nat
  ssrc : Nat
  csrcs : List Nat
  extension_header : Option RtpExtension
deriving Repr, DecidableEq

/-- Parsed transport packet: header, payload offset and payload bytes (rtp.rs RtpPacket). -/
structure RtpPacket where
  header : RtpHeader
  payload_offset : Nat
  payload : List Nat
deriving Repr, DecidableEq

/-- The contributing-source reading loop of RtpPacket::parse: reads `n` 32-bit
words starting at `offset`, returning the words and the offset after them. -/
def readCsrcs (buf : List Nat) (offset : Nat) : Nat → Except RtpError (List Nat × Nat)
  | 0 => .ok ([], offset)
  | Nat.succ n =>
    if buf.length < offset + 4 then .error .BufferTooShort
    else
      match readCsrcs buf (offset + 4) n with
      | .error e => .error e
      | .ok (rest, off2) =>
        .ok (be32 (byteAt buf offset) (byteAt buf (offset + 1))
              (byteAt buf (offset + 2)) (byteAt buf (offset + 3)) :: rest, off2)

/-- The extension-header section of RtpPacket::parse: when the extension flag is
set, reads the 4-byte extension header and skips the declared data. -/
def parseExt (buf : List Nat) (offset : Nat) (extFlag : Bool) :
    Except RtpError (Option RtpExtension × Nat) :=
  if extFlag then
    if buf.length < offset + 4 then .error .BufferTooShort
    else
      let profile := be16 (byteAt buf offset) (byteAt buf (offset + 1))
      let length_words := be16 (byteAt buf (offset + 2)) (byteAt buf (offset + 3))
      let off := offset + 4
      let ext_len := length_words * 4
      if buf.length < off + ext_len then .error .InvalidExtensionLength
      else .ok (some ⟨profile, length_words, off, ext_len⟩, off + ext_len)
  else .ok (none, offset)

/-- The padding section of RtpPacket::parse: computes the end of the payload,
checking the declared padding length when the padding flag is set. -/
def payloadEnd (buf : List Nat) (offset : Nat) (padFlag : Bool) : Except RtpError Nat :=
  if padFlag then
    if buf.length ≤ offset then .error .BufferTooShort
    else
      let pad := lastByte buf
      if pad = 0 ∨ buf.length - offset < pad then .error .BufferTooShort
      else .ok (buf.length - pad)
  else .ok buf.length

/-- RtpPacket::parse from rtp.rs: fixed 12-byte header, version gate,
contributing sources, optional extension, optional trailing padding. -/
def RtpPacket.parse (buf : List Nat) : Except RtpError RtpPacket :=
  if buf.length < 12 then .error .BufferTooShort
  else
    let b0 := byteAt buf 0
    let version := (b0 >>> 6) &&& 0x03
    if version ≠ 2 then .error (.InvalidVersion version)
    else
      let padding := ((b0 >>> 5) &&& 0x01) != 0
      let extFlag := ((b0 >>> 4) &&& 0x01) != 0
      let csrc_count := b0 &&& 0x0F
      let b1 := byteAt buf 1
      let marker := (b1 &&& 0x80) != 0
      let payload_type := b1 &&& 0x7F
      let sequence_number := be16 (byteAt buf 2) (byteAt buf 3)
      let timestamp := be32 (byteAt buf 4) (byteAt buf 5) (byteAt buf 6) (byteAt buf 7)
      let ssrc := be32 (byteAt buf 8) (byteAt buf 9) (byteAt buf 10) (byteAt buf 11)
      match readCsrcs buf 12 csrc_count with
      | .error e => .error e
      | .ok (csrcs, off1) =>
        match parseExt buf off1 extFlag with
        | .error e => .error e
        | .ok (extension_header, offset) =>
          match payloadEnd buf offset padding with
          | .error e => .error e
          | .ok pend =>
            .ok { header := { version := version, padding := padding, extension := extFlag,
                              csrc_count := csrc_count, marker := marker,
                              payload_type := payload_type,
                              sequence_number := sequence_number, timestamp := timestamp,
                              ssrc := ssrc, csrcs := csrcs,
                              extension_header := extension_header },
                  payload_offset := offset,
                  payload := extract buf offset pend }

/-- Codec tags (codecs/mod.rs Codec). -/
inductive Codec where
  | Vp9
  | Avc
  | Hevc
  | Av1
  | Unknown
deriving Repr, DecidableEq

/-- AVC payload classification (codecs/avc.rs AvcNalKind); `fu_end` stands for
the source's `end` field, which is a reserved word here. -/
inductive AvcNalKind where
  | Single (t : Nat)
  | StapA
  | StapB
  | Mtap16
  | Mtap24
  | FuA (start fu_end : Bool) (nal_type : Nat)
  | FuB (start fu_end : Bool) (nal_type : Nat)
  | Unknown (t : Nat)
deriving Repr, DecidableEq

/-- AVC depacketizer error (codecs/avc.rs AvcError). -/
inductive AvcError where
  | BufferTooShort
deriving Repr, DecidableEq

/-- A NAL type is a video-coding-layer type iff it is in 1..=5 (codecs/avc.rs avc_vcl_type). -/
def avc_vcl_type (nal_type : Nat) : Bool := decide (1 ≤ nal_type ∧ nal_type ≤ 5)

/-- codecs/avc.rs parse_avc_payload_header: classify an AVC payload by the low
5 bits of its first byte, returning the kind and the packetization header length. -/
def parse_avc_payload_header (payload : List Nat) : Except AvcError (AvcNalKind × Nat) :=
  if payload.length = 0 then .error .BufferTooShort
  else
    let indicator := byteAt payload 0
    let nal_type := indicator &&& 0x1F
    if 1 ≤ nal_type ∧ nal_type ≤ 23 then .ok (.Single nal_type, 0)
    else if nal_type = 24 then .ok (.StapA, 1)
    else if nal_type = 25 then .ok (.StapB, 1)
    else if nal_type = 26 then .ok (.Mtap16, 1)
    else if nal_type = 27 then .ok (.Mtap24, 1)
    else if nal_type = 28 ∨ nal_type = 29 then
      if payload.length < 2 then .error .BufferTooShort
      else
        let fu_header := byteAt payload 1
        let s := (fu_header &&& 0x80) != 0
        let e := (fu_header &&& 0x40) != 0
        let nt := fu_header &&& 0x1F
        if nal_type = 28 then .ok (.FuA s e nt, 2) else .ok (.FuB s e nt, 2)
    else .ok (.Unknown nal_type, 0)

/-- HEVC payload classification (codecs/hevc.rs HevcNalKind). -/
inductive HevcNalKind where
  | Single (nal_type : Nat)
  | Ap
  | Fu (start fu_end : Bool) (nal_type : Nat)
  | Pacsi
  | Unknown (t : Nat)
deriving Repr, DecidableEq

/-- HEVC depacketizer error (codecs/hevc.rs HevcError). -/
inductive HevcError where
  | BufferTooShort
deriving Repr, DecidableEq

/-- A 6-bit HEVC NAL type is VCL iff it is at most 31 (codecs/hevc.rs hevc_vcl_type). -/
def hevc_vcl_type (nal_type : Nat) : Bool := decide (nal_type ≤ 31)

/-- codecs/hevc.rs parse_hevc_payload_header: classify an HEVC payload by the
6-bit type in its 2-byte NAL header. -/
def parse_hevc_payload_header (payload : List Nat) : Except HevcError (HevcNalKind × Nat) :=
  if payload.length < 2 then .error .BufferTooShort
  else
    let b0 := byteAt payload 0
    let nal_type := (b0 &&& 0x7E) >>> 1
    if nal_type = 48 then .ok (.Ap, 2)
    else if nal_type = 49 then
      if payload.length < 3 then .error .BufferTooShort
      else
        let fu_header := byteAt payload 2
        let s := (fu_header &&& 0x80) != 0
        let e := (fu_header &&& 0x40) != 0
        let orig_type := fu_header &&& 0x3F
        .ok (.Fu s e orig_type, 3)
    else if nal_type = 50 then .ok (.Pacsi, 2)
    else if nal_type ≤ 63 then .ok (.Single nal_type, 0)
    else .ok (.Unknown nal_type, 0)

/-- VP9 payload descriptor (codecs/vp9.rs Vp9PayloadDesc). -/
structure Vp9PayloadDesc where
  i_bit : Bool
  p_bit : Bool
  l_bit : Bool
  f_bit : Bool
  b_bit : Bool
  e_bit : Bool
  v_bit : Bool
  z_bit : Bool
  picture_id : Option Nat
deriving Repr, DecidableEq

/-- VP9 depacketizer error (codecs/vp9.rs Vp9Error). -/
inductive Vp9Error where
  | BufferTooShort
deriving Repr, DecidableEq

/-- codecs/vp9.rs Vp9PayloadDesc::parse: flag byte plus optional 1- or 2-byte
picture identifier; returns the descriptor and the bytes consumed. -/
def Vp9PayloadDesc.parse (buf : List Nat) : Except Vp9Error (Vp9PayloadDesc × Nat) :=
  if buf.length = 0 then .error .BufferTooShort
  else
    let b0 := byteAt buf 0
    let i_bit := (b0 &&& 0x80) != 0
    if i_bit then
      if buf.length < 2 then .error .BufferTooShort
      else
        let b := byteAt buf 1
        let m := (b &&& 0x80) != 0
        if m then
          if buf.length < 3 then .error .BufferTooShort
          else
            .ok ({ i_bit := i_bit, p_bit := (b0 &&& 0x40) != 0, l_bit := (b0 &&& 0x20) != 0,
                   f_bit := (b0 &&& 0x10) != 0, b_bit := (b0 &&& 0x08) != 0,
                   e_bit := (b0 &&& 0x04) != 0, v_bit := (b0 &&& 0x02) != 0,
                   z_bit := (b0 &&& 0x01) != 0,
                   picture_id := some ((b &&& 0x7F) * 256 + byteAt buf 2) }, 3)
        else
          .ok ({ i_bit := i_bit, p_bit := (b0 &&& 0x40) != 0, l_bit := (b0 &&& 0x20) != 0,
                 f_bit := (b0 &&& 0x10) != 0, b_bit := (b0 &&& 0x08) != 0,
                 e_bit := (b0 &&& 0x04) != 0, v_bit := (b0 &&& 0x02) != 0,
                 z_bit := (b0 &&& 0x01) != 0,
                 picture_id := some (b &&& 0x7F) }, 2)
    else
      .ok ({ i_bit := i_bit, p_bit := (b0 &&& 0x40) != 0, l_bit := (b0 &&& 0x20) != 0,
             f_bit := (b0 &&& 0x10) != 0, b_bit := (b0 &&& 0x08) != 0,
             e_bit := (b0 &&& 0x04) != 0, v_bit := (b0 &&& 0x02) != 0,
             z_bit := (b0 &&& 0x01) != 0, picture_id := none }, 1)

/-- AV1 aggregation header (codecs/av1.rs Av1PayloadHdr). -/
structure Av1PayloadHdr where
  z_bit : Bool
  y_bit : Bool
  n_bit : Bool
  w_bit : Bool
  t_bit : Bool
  k_bit : Bool
deriving Repr, DecidableEq

/-- AV1 depacketizer error (codecs/av1.rs Av1Error). -/
inductive Av1Error where
  | BufferTooShort
deriving Repr, DecidableEq

/-- codecs/av1.rs parse_av1_payload_header: the first payload byte carries the
Z, Y, N, W, T, K flags; header length 1. -/
def parse_av1_payload_header (payload : List Nat) : Except Av1Error (Av1PayloadHdr × Nat) :=
  if payload.length = 0 then .error .BufferTooShort
  else
    let b0 := byteAt payload 0
    .ok ({ z_bit := (b0 &&& 0x80) != 0, y_bit := (b0 &&& 0x40) != 0,
           n_bit := (b0 &&& 0x20) != 0, w_bit := (b0 &&& 0x10) != 0,
           t_bit := (b0 &&& 0x08) != 0, k_bit := (b0 &&& 0x04) != 0 }, 1)

/-- guess.rs guess_codec: heuristic codec choice from the first payload bytes. -/
def guess_codec (payload : List Nat) : Codec :=
  if payload.length = 0 then .Unknown
  else
    let b0 := byteAt payload 0
    let hevcHit :=
      if 3 ≤ payload.length then
        if (b0 &&& 0x7E) >>> 1 = 49 then
          let fu_hdr := byteAt payload 2
          (fu_hdr &&& 0x80) != 0 || (fu_hdr &&& 0x40) != 0
        else false
      else false
    if hevcHit then .Hevc
    else if b0 &&& 0x03 = 0 then .Av1
    else
      let avc_type := b0 &&& 0x1F
      let avc_nri_nonzero := (b0 &&& 0x60) != 0
      if 24 ≤ avc_type ∧ avc_type ≤ 29 then
        if 2 ≤ payload.length ∧ avc_nri_nonzero = true then .Avc else .Vp9
      else if (1 ≤ avc_type ∧ avc_type ≤ 23) ∧ avc_nri_nonzero = true then .Avc
      else .Vp9

/-- Frame boundary classification (analyze.rs FrameBoundary). -/
inductive FrameBoundary where
  | None
  | Start
  | End
  | StartEnd
deriving Repr, DecidableEq

/-- Analyzer state (analyze.rs FrameAnalyzer): an optional codec and the in_frame flag. -/
structure FrameAnalyzer where
  codec : Option Codec
  in_frame : Bool
deriving Repr, DecidableEq

/-- FrameAnalyzer::new. -/
def FrameAnalyzer.new : FrameAnalyzer := { codec := none, in_frame := false }

/-- FrameAnalyzer::set_codec. -/
def FrameAnalyzer.set_codec (a : FrameAnalyzer) (c : Codec) : FrameAnalyzer :=
  { a with codec := some c }

/-- Combine the (start, end) pair into a boundary, as the repeated match in analyze.rs. -/
def boundary_of (start e : Bool) : FrameBoundary :=
  match start, e with
  | true, true => .StartEnd
  | true, false => .Start
  | false, true => .End
  | false, false => .None

/-- The matches!(fb, End | StartEnd) test used to update in_frame in analyze.rs. -/
def is_closing : FrameBoundary → Bool
  | .End => true
  | .StartEnd => true
  | _ => false

/-- FrameAnalyzer::analyze_generic: marker-bit boundaries for unknown codecs. -/
def FrameAnalyzer.analyze_generic (a : FrameAnalyzer) (pkt : RtpPacket) :
    FrameBoundary × FrameAnalyzer :=
  let start := !a.in_frame
  let e := pkt.header.marker
  (boundary_of start e, { a with in_frame := !e })

/-- FrameAnalyzer::analyze_avc. -/
def FrameAnalyzer.analyze_avc (a : FrameAnalyzer) (pkt : RtpPacket) :
    FrameBoundary × FrameAnalyzer :=
  match parse_avc_payload_header pkt.payload with
  | .error _ => a.analyze_generic pkt
  | .ok (kind, _) =>
    match kind with
    | .FuA s _ nal_type | .FuB s _ nal_type =>
      let start := s && avc_vcl_type nal_type
      let e := pkt.header.marker
      let fb := boundary_of start e
      (fb, { a with in_frame := !is_closing fb })
    | .Single t =>
      let start := avc_vcl_type t && !a.in_frame
      let e := pkt.header.marker
      let fb := boundary_of start e
      (fb, { a with in_frame := !is_closing fb })
    | .StapA | .StapB | .Mtap16 | .Mtap24 =>
      let start := !a.in_frame
      let e := pkt.header.marker
      let fb := boundary_of start e
      (fb, { a with in_frame := !is_closing fb })
    | .Unknown _ =>
      let start := !a.in_frame
      let e := pkt.header.marker
      let fb := boundary_of start e
      (fb, { a with in_frame := !is_closing fb })

/-- FrameAnalyzer::analyze_hevc. -/
def FrameAnalyzer.analyze_hevc (a : FrameAnalyzer) (pkt : RtpPacket) :
    FrameBoundary × FrameAnalyzer :=
  match parse_hevc_payload_header pkt.payload with
  | .error _ => a.analyze_generic pkt
  | .ok (kind, _) =>
    match kind with
    | .Fu s _ nal_type =>
      let start := s && hevc_vcl_type nal_type
      let e := pkt.header.marker
      let fb := boundary_of start e
      (fb, { a with in_frame := !is_closing fb })
    | .Single nal_type =>
      let start := hevc_vcl_type nal_type && !a.in_frame
      let e := pkt.header.marker
      let fb := boundary_of start e
      (fb, { a with in_frame := !is_closing fb })
    | .Ap | .Pacsi | .Unknown _ =>
      let start := !a.in_frame
      let e := pkt.header.marker
      let fb := boundary_of start e
      (fb, { a with in_frame := !is_closing fb })

/-- FrameAnalyzer::analyze_vp9. -/
def FrameAnalyzer.analyze_vp9 (a : FrameAnalyzer) (pkt : RtpPacket) :
    FrameBoundary × FrameAnalyzer :=
  match Vp9PayloadDesc.parse pkt.payload with
  | .error _ => a.analyze_generic pkt
  | .ok (desc, _) =>
    let start := desc.b_bit || !a.in_frame
    let e := desc.e_bit || pkt.header.marker
    let fb := boundary_of start e
    (fb, { a with in_frame := !is_closing fb })

/-- FrameAnalyzer::analyze_av1. -/
def FrameAnalyzer.analyze_av1 (a : FrameAnalyzer) (pkt : RtpPacket) :
    FrameBoundary × FrameAnalyzer :=
  match parse_av1_payload_header pkt.payload with
  | .error _ => a.analyze_generic pkt
  | .ok _ =>
    let start := !a.in_frame
    let e := pkt.header.marker
    let fb := boundary_of start e
    (fb, { a with in_frame := !is_closing fb })

/-- FrameAnalyzer::analyze: guess the codec when unset, store it, dispatch. -/
def FrameAnalyzer.analyze (a : FrameAnalyzer) (pkt : RtpPacket) :
    FrameBoundary × FrameAnalyzer :=
  let codec := a.codec.getD (guess_codec pkt.payload)
  let a := { a with codec := some codec }
  match codec with
  | .Avc => a.analyze_avc pkt
  | .Hevc => a.analyze_hevc pkt
  | .Vp9 => a.analyze_vp9 pkt
  | .Av1 => a.analyze_av1 pkt
  | .Unknown => a.analyze_generic pkt

/-- Reorder configuration (reassemble.rs ReorderConfig). -/
structure ReorderConfig where
  enable_reordering : Bool
  drop_incomplete_frames : Bool
  max_buffered_packets_per_frame : Nat
deriving Repr, DecidableEq

/-- The Default impl of ReorderConfig. -/
def ReorderConfig.default : ReorderConfig :=
  { enable_reordering := true, drop_incomplete_frames := true,
    max_buffered_packets_per_frame := 2048 }

/-- Owned copy of one packet buffered inside a collector (reassemble.rs OwnedPkt). -/
structure OwnedPkt where
  seq : Nat
  payload : List Nat
deriving Repr, DecidableEq

/-- Frame collector (reassemble.rs FrameCollector): the BTreeMap from sequence
number to owned packet is modelled as a list kept sorted by `insertPkt`, which
also is the map's ascending iteration order. -/
structure FrameCollector where
  packets : List OwnedPkt
  seen_marker : Bool
deriving Repr, DecidableEq

/-- BTreeMap::insert keyed by seq: keeps ascending seq order, overwrites duplicates. -/
def insertPkt (p : OwnedPkt) : List OwnedPkt → List OwnedPkt
  | [] => [p]
  | q :: qs =>
    if p.seq < q.seq then p :: q :: qs
    else if p.seq = q.seq then p :: qs
    else q :: insertPkt p qs

/-- Reassembler state (reassemble.rs FrameReassembler); the HashMap from
timestamp to collector is modelled as a function to Option. -/
structure FrameReassembler where
  analyzer : FrameAnalyzer
  current_ssrc : Option Nat
  codec : Option Codec
  frames : Nat → Option FrameCollector
  config : ReorderConfig

/-- FrameReassembler::new (the Default impl). -/
def FrameReassembler.new : FrameReassembler :=
  { analyzer := FrameAnalyzer.new, current_ssrc := none, codec := none,
    frames := fun _ => none, config := ReorderConfig.default }

/-- FrameReassembler::set_codec: sets the codec and forwards it to the analyzer. -/
def FrameReassembler.set_codec (s : FrameReassembler) (c : Codec) : FrameReassembler :=
  { s with codec := some c, analyzer := s.analyzer.set_codec c }

/-- Does the AVC iteration body of frame_ready_to_flush accept this payload as a
Start: Single or any aggregation, or a fragmentation unit with S set. -/
def isAvcStart (payload : List Nat) : Bool :=
  match parse_avc_payload_header payload with
  | .error _ => false
  | .ok (kind, _) =>
    match kind with
    | .Single _ => true
    | .StapA => true
    | .StapB => true
    | .Mtap16 => true
    | .Mtap24 => true
    | .FuA s _ _ => s
    | .FuB s _ _ => s
    | .Unknown _ => false

/-- Does the HEVC iteration body of frame_ready_to_flush accept this payload as
a Start: Single, Ap or Pacsi, or a fragmentation unit with S set. -/
def isHevcStart (payload : List Nat) : Bool :=
  match parse_hevc_payload_header payload with
  | .error _ => false
  | .ok (kind, _) =>
    match kind with
    | .Single _ => true
    | .Ap => true
    | .Pacsi => true
    | .Fu s _ _ => s
    | .Unknown _ => false

/-- Does the VP9 iteration body of frame_ready_to_flush accept this payload as
a Start: descriptor parses with the B bit set. -/
def isVp9Start (payload : List Nat) : Bool :=
  match Vp9PayloadDesc.parse payload with
  | .error _ => false
  | .ok (desc, _) => desc.b_bit

/-- FrameReassembler::frame_ready_to_flush: the per-codec readiness predicate. -/
def FrameReassembler.frame_ready_to_flush (s : FrameReassembler) (timestamp : Nat)
    (codec : Codec) : Bool :=
  match s.frames timestamp with
  | none => false
  | some entry =>
    if !entry.seen_marker then false
    else
      match codec with
      | .Avc => entry.packets.any (fun p => isAvcStart p.payload)
      | .Hevc => entry.packets.any (fun p => isHevcStart p.payload)
      | .Vp9 => entry.packets.any (fun p => isVp9Start p.payload)
      | .Av1 => true
      | .Unknown => true

/-- The gap-detection loop of assemble_frame, carrying last_seq and the
incomplete flag over the ascending iteration of buffered sequence numbers. -/
def gapScan (last : Option Nat) (inc : Bool) : List Nat → Bool
  | [] => inc
  | q :: qs =>
    let inc :=
      match last with
      | some l => if wrapSub16 q l ≠ 1 then true else inc
      | none => inc
    gapScan (some q) inc qs

/-- Gap detection over buffered sequence numbers in iteration order. -/
def detectGaps (seqs : List Nat) : Bool := gapScan none false seqs

/-- The 4-byte start code written by FrameReassembler::write_start_code. -/
def startCode : List Nat := [0, 0, 0, 1]

/-- One step of the aggregation loops of append_avc_payload (StapA) and
append_hevc_payload (Ap): at offset i, read a 16-bit size, take that many bytes
as a NAL; none stops the loop (either too few bytes for a size, or truncation). -/
def agg_step (payload : List Nat) (i : Nat) : Option (Nat × List Nat) :=
  if i + 2 ≤ payload.length then
    let size := be16 (byteAt payload i) (byteAt payload (i + 1))
    if payload.length < i + 2 + size then none
    else some (i + 2 + size, startCode ++ extract payload (i + 2) (i + 2 + size))
  else none

/-- The aggregation while-loop, fuel-structured; each iteration advances the
offset by at least 2, so fuel `payload.length` never runs out before the real
loop exit (agg_loop_fuel below makes this exact). -/
def agg_loop (payload : List Nat) : Nat → Nat → List Nat
  | 0, _ => []
  | fuel + 1, i =>
    match agg_step payload i with
    | none => []
    | some (j, chunk) => chunk ++ agg_loop payload fuel j

/-- FrameReassembler::append_avc_payload: returns the new out buffer and the
updated fu_open and incomplete flags. -/
def append_avc_payload (payload out : List Nat) (fu_open incomplete : Bool) :
    List Nat × Bool × Bool :=
  match parse_avc_payload_header payload with
  | .error _ => (out ++ payload, fu_open, incomplete)
  | .ok (kind, off) =>
    match kind with
    | .Single _ => (out ++ startCode ++ payload, fu_open, incomplete)
    | .StapA => (out ++ agg_loop payload payload.length 1, fu_open, incomplete)
    | .FuA s _ nal_type | .FuB s _ nal_type =>
      if s then
        let fu_indicator := byteAt payload 0
        let nal_hdr := (fu_indicator &&& 0xE0) ||| (nal_type &&& 0x1F)
        (out ++ startCode ++ [nal_hdr] ++ payload.drop off, true, incomplete)
      else if !fu_open then (out, fu_open, true)
      else (out ++ payload.drop off, fu_open, incomplete)
    | .StapB | .Mtap16 | .Mtap24 | .Unknown _ =>
      (out ++ startCode ++ payload, fu_open, incomplete)

/-- FrameReassembler::append_hevc_payload. -/
def append_hevc_payload (payload out : List Nat) (fu_open incomplete : Bool) :
    List Nat × Bool × Bool :=
  match parse_hevc_payload_header payload with
  | .error _ => (out ++ payload, fu_open, incomplete)
  | .ok (kind, off) =>
    match kind with
    | .Single _ | .Pacsi | .Unknown _ => (out ++ startCode ++ payload, fu_open, incomplete)
    | .Ap => (out ++ agg_loop payload payload.length 2, fu_open, incomplete)
    | .Fu s _ nal_type =>
      if s then
        let b0 := byteAt payload 0
        let b1 := byteAt payload 1
        let new_b0 := (b0 &&& 0x81) ||| ((nal_type <<< 1) &&& 0x7E)
        (out ++ startCode ++ [new_b0, b1] ++ payload.drop off, true, incomplete)
      else if !fu_open then (out, fu_open, true)
      else (out ++ payload.drop off, fu_open, incomplete)

/-- FrameReassembler::append_vp9_payload. -/
def append_vp9_payload (payload out : List Nat) : List Nat :=
  match Vp9PayloadDesc.parse payload with
  | .error _ => out ++ payload
  | .ok (_, off) => out ++ payload.drop off

/-- FrameReassembler::append_av1_payload. -/
def append_av1_payload (payload out : List Nat) : List Nat :=
  match parse_av1_payload_header payload with
  | .error _ => out ++ payload
  | .ok (_, off) => out ++ payload.drop off

/-- The per-packet dispatch of the assembly iteration; state is
(out, fu_open_avc, fu_open_hevc, incomplete). -/
def assemble_step (codec : Codec) (st : List Nat × Bool × Bool × Bool) (p : OwnedPkt) :
    List Nat × Bool × Bool × Bool :=
  let (out, fuA, fuH, inc) := st
  match codec with
  | .Avc =>
    let (o, f, i) := append_avc_payload p.payload out fuA inc
    (o, f, fuH, i)
  | .Hevc =>
    let (o, f, i) := append_hevc_payload p.payload out fuH inc
    (o, fuA, f, i)
  | .Vp9 => (append_vp9_payload p.payload out, fuA, fuH, inc)
  | .Av1 => (append_av1_payload p.payload out, fuA, fuH, inc)
  | .Unknown => (out ++ p.payload, fuA, fuH, inc)

/-- FrameReassembler::assemble_frame: gap detection, per-packet appends in
ascending sequence order, and the drop_incomplete_frames finalization. -/
def FrameReassembler.assemble_frame (s : FrameReassembler) (timestamp : Nat) :
    Option (List Nat) :=
  let codec := s.codec.getD .Unknown
  match s.frames timestamp with
  | none => none
  | some entry =>
    let incomplete0 := detectGaps (entry.packets.map (fun p => p.seq))
    let st := entry.packets.foldl (assemble_step codec) ([], false, false, incomplete0)
    if s.config.drop_incomplete_frames && st.2.2.2 then none else some st.1

/-- The stream-identity step of push_packet: on an ssrc mismatch clear all
collectors and reset the analyzer (re-applying a configured codec), then record
the incoming ssrc. -/
def step_ssrc (s : FrameReassembler) (pkt : RtpPacket) : FrameReassembler :=
  let s :=
    match s.current_ssrc with
    | some ssrc =>
      if ssrc ≠ pkt.header.ssrc then
        { s with frames := fun _ => none,
                 analyzer :=
                   match s.codec with
                   | some c => FrameAnalyzer.new.set_codec c
                   | none => FrameAnalyzer.new }
      else s
    | none => s
  { s with current_ssrc := some pkt.header.ssrc }

/-- The codec-discovery step of push_packet: run the analyzer for its side
effect; copy its codec when the reassembler has none (self.codec.is_none()). -/
def step_codec (s : FrameReassembler) (pkt : RtpPacket) : FrameReassembler :=
  let a := (s.analyzer.analyze pkt).2
  let s := { s with analyzer := a }
  match s.codec with
  | none => { s with codec := a.codec }
  | some _ => s

/-- The collector written at the packet's timestamp by the insertion step:
locate or create it, apply the overflow policy, insert the owned payload by
sequence number, and record the marker bit. -/
def insertedEntry (s : FrameReassembler) (pkt : RtpPacket) : FrameCollector :=
  let entry := (s.frames pkt.header.timestamp).getD { packets := [], seen_marker := false }
  let entry :=
    if s.config.max_buffered_packets_per_frame ≤ entry.packets.length then
      { entry with packets := [] }
    else entry
  let entry :=
    { entry with
      packets := insertPkt { seq := pkt.header.sequence_number, payload := pkt.payload }
                   entry.packets }
  if pkt.header.marker then { entry with seen_marker := true } else entry

/-- The frame-insertion step of push_packet. -/
def step_insert (s : FrameReassembler) (pkt : RtpPacket) : FrameReassembler :=
  let ts := pkt.header.timestamp
  { s with frames := fun t => if t = ts then some (insertedEntry s pkt) else s.frames t }

/-- The completion step of push_packet: when the collector has seen the marker
and the readiness predicate holds, assemble, remove the collector and return
the frame. -/
def step_flush (s : FrameReassembler) (pkt : RtpPacket) :
    Option (List Nat) × FrameReassembler :=
  let ts := pkt.header.timestamp
  match s.frames ts with
  | none => (none, s)
  | some entry =>
    if entry.seen_marker then
      let codec := s.codec.getD .Unknown
      if s.frame_ready_to_flush ts codec then
        (s.assemble_frame ts, { s with frames := fun t => if t = ts then none else s.frames t })
      else (none, s)
    else (none, s)

/-- FrameReassembler::push_packet, in the source's order: ssrc reset, codec
discovery, insertion, completion check. -/
def FrameReassembler.push_packet (s : FrameReassembler) (pkt : RtpPacket) :
    Option (List Nat) × FrameReassembler :=
  step_flush (step_insert (step_codec (step_ssrc s pkt) pkt) pkt) pkt

/-- Push a list of packets in order, collecting each push's returned frame. -/
def pushAll (s : FrameReassembler) : List RtpPacket → List (Option (List Nat)) × FrameReassembler
  | [] => ([], s)
  | p :: ps =>
    let r := s.push_packet p
    let rs := pushAll r.2 ps
    (r.1 :: rs.1, rs.2)

/-- Build a parsed packet record with the given payload, marker, sequence
number, timestamp and ssrc (the fields push_packet consumes). -/
def mkPkt (payload : List Nat) (marker : Bool) (seq ts ssrc : Nat) : RtpPacket :=
  { header := { version := 2, padding := false, extension := false, csrc_count := 0,
                marker := marker, payload_type := 96, sequence_number := seq,
                timestamp := ts, ssrc := ssrc, csrcs := [], extension_header := none },
    payload_offset := 12, payload := payload }

/-- Spec-side Start qualification, following the readiness section of the spec:
for AVC a payload that parses as Single, StapA, StapB, Mtap16, Mtap24 or a
fragmentation unit with S = 1 (an Unknown NAL type does not qualify); for HEVC
one that parses as Single, Ap, Pacsi or a fragmentation unit with S = 1; for
VP9 one whose descriptor has the B bit set; for AV1 and Unknown every payload. -/
def qualifiesStart (codec : Codec) (payload : List Nat) : Bool :=
  match codec with
  | .Avc =>
    match parse_avc_payload_header payload with
    | .ok (.Single _, _) => true
    | .ok (.StapA, _) => true
    | .ok (.StapB, _) => true
    | .ok (.Mtap16, _) => true
    | .ok (.Mtap24, _) => true
    | .ok (.FuA true _ _, _) => true
    | .ok (.FuB true _ _, _) => true
    | _ => false
  | .Hevc =>
    match parse_hevc_payload_header payload with
    | .ok (.Single _, _) => true
    | .ok (.Ap, _) => true
    | .ok (.Pacsi, _) => true
    | .ok (.Fu true _ _, _) => true
    | _ => false
  | .Vp9 =>
    match Vp9PayloadDesc.parse payload with
    | .ok (desc, _) => desc.b_bit
    | .error _ => false
  | .Av1 => true
  | .Unknown => true

/-- Spec-side gap characterization: some adjacent pair of the iteration order
has modular-16 difference other than 1. -/
def gapSpec (seqs : List Nat) : Bool :=
  (seqs.zip seqs.tail).any (fun ab => wrapSub16 ab.2 ab.1 != 1)

/-- Does the codec's depacketizer accept this payload (no BufferTooShort)? -/
def depOk (codec : Codec) (payload : List Nat) : Bool :=
  match codec with
  | .Avc => isOkE (parse_avc_payload_header payload)
  | .Hevc => isOkE (parse_hevc_payload_header payload)
  | _ => true

/-- Spec-side readiness condition beyond seen_marker: at least one buffered
payload qualifies as a Start under the codec's rules; for AV1 and Unknown the
predicate holds whenever seen_marker is set, so the condition is simply true. -/
def startCondition (codec : Codec) (pkts : List OwnedPkt) : Bool :=
  match codec with
  | .Av1 => true
  | .Unknown => true
  | _ => pkts.any (fun p => qualifiesStart codec p.payload)

/-- Equality of the emission-relevant reassembler fields: everything except the
analyzer, which push_packet only consults for codec discovery. -/
def ObsEq (s t : FrameReassembler) : Prop :=
  s.current_ssrc = t.current_ssrc ∧ s.codec = t.codec ∧ s.frames = t.frames ∧
  s.config = t.config

/-- C1: with codec AVC and the default reorder configuration, pushing the two
fragmentation-unit packets (equal timestamps, sequences 100 then 101, payloads
7C 85 AA BB with marker clear and 7C 05 CC with marker set) returns nothing on
the first push and, on the second, exactly the 4-byte start code, the NAL
header reconstructed as (fu_indicator AND E0) OR (original_type AND 1F), and
the post-FU-header fragment bytes in sequence order. -/
theorem C1_avc_fu_scenario :
    (((FrameReassembler.new.set_codec .Avc).push_packet
        (mkPkt [0x7C, 0x85, 0xAA, 0xBB] false 100 2 3)).1 = none) ∧
    ((((FrameReassembler.new.set_codec .Avc).push_packet
        (mkPkt [0x7C, 0x85, 0xAA, 0xBB] false 100 2 3)).2.push_packet
        (mkPkt [0x7C, 0x05, 0xCC] true 101 2 3)).1 =
      some (startCode ++ [(0x7C &&& 0xE0) ||| (0x05 &&& 0x1F)] ++ [0xAA, 0xBB] ++ [0xCC])) := by
  constructor
  · rfl
  · rfl

/-- gapScan started from a previous sequence number scans exactly the adjacent
pairs of prev :: rest. -/
theorem gapScan_some (qs : List Nat) : ∀ (l : Nat) (inc : Bool),
    gapScan (some l) inc qs =
      (inc || ((l :: qs).zip qs).any (fun ab => wrapSub16 ab.2 ab.1 != 1)) := by
  induction qs with
  | nil => intro l inc; simp [gapScan]
  | cons q qs ih =>
    intro l inc
    simp only [gapScan, List.zip_cons_cons, List.any_cons]
    rw [ih]
    by_cases hw : wrapSub16 q l ≠ 1
    · simp [hw, Bool.or_assoc, Bool.or_comm]
    · simp at hw
      simp [hw]

/-- detectGaps agrees with the adjacent-pair characterization. -/
theorem detectGaps_eq_gapSpec (seqs : List Nat) : detectGaps seqs = gapSpec seqs := by
  cases seqs with
  | nil => rfl
  | cons s rest =>
    unfold detectGaps gapSpec
    simp only [gapScan]
    rw [gapScan_some]
    simp

/-- C3, counterexample: a frame whose two buffered packets carry sequence
numbers FFFF and 0000 iterates them in ascending numeric order (0000 then
FFFF), the modular difference is FFFF, and the frame IS flagged incomplete:
under codec Unknown and the default configuration the marker-bearing push
is suppressed instead of emitting the concatenated payloads. -/
theorem C3_wrap_counterexample :
    detectGaps ((insertPkt ⟨0x0000, [2]⟩ (insertPkt ⟨0xFFFF, [1]⟩ [])).map
      (fun p => p.seq)) = true ∧
    (pushAll (FrameReassembler.new.set_codec .Unknown)
      [mkPkt [1] false 0xFFFF 5 3, mkPkt [2] true 0x0000 5 3]).1 = [none, none] := by
  constructor
  · rfl
  · rfl

/-- C3, amended: gap detection computes the modular-16 difference of every
adjacent pair in the (ascending) iteration order and sets the incomplete flag
exactly when some such difference is not 1; in particular the pair 0000, FFFF
produced by a frame spanning the 16-bit wrap has difference FFFF and IS
flagged, as is any larger modular gap. -/
theorem C3_gap_detection_amended :
    (∀ seqs : List Nat, detectGaps seqs = gapSpec seqs) ∧
    detectGaps [0x0000, 0xFFFF] = true := by
  exact ⟨detectGaps_eq_gapSpec, rfl⟩

/-- C5, counterexample: the buffer 00 00 00 has version bits 0 (not 2), yet
parse returns BufferTooShort, not InvalidVersion, because the length gate runs
first. -/
theorem C5_version_counterexample :
    RtpPacket.parse [0, 0, 0] = .error .BufferTooShort ∧
    RtpPacket.parse [0, 0, 0] ≠
      .error (.InvalidVersion ((byteAt [0, 0, 0] 0 >>> 6) &&& 0x03)) := by
  refine ⟨rfl, fun h => ?_⟩
  rw [show RtpPacket.parse [0, 0, 0] = .error .BufferTooShort from rfl] at h
  simp at h

/-- C5, amended: for every buffer of length at least 12 whose byte 0 has
version bits other than 2, parse returns InvalidVersion carrying the observed
2-bit value. -/
theorem C5_version_gate_amended (buf : List Nat) (h12 : 12 ≤ buf.length)
    (hv : (byteAt buf 0 >>> 6) &&& 0x03 ≠ 2) :
    RtpPacket.parse buf = .error (.InvalidVersion ((byteAt buf 0 >>> 6) &&& 0x03)) := by
  unfold RtpPacket.parse
  split
  · omega
  · simp only []
    rw [if_pos hv]

/-- C5, witness: the amended version gate at a concrete 12-byte buffer with
version bits 0. -/
theorem C5_version_gate_witness :
    RtpPacket.parse [0, 0, 0, 0, 0, 0, 0, 0, 0, 0, 0, 0] =
      .error (.InvalidVersion ((byteAt [0, 0, 0, 0, 0, 0, 0, 0, 0, 0, 0, 0] 0 >>> 6) &&& 0x03)) :=
  C5_version_gate_amended [0, 0, 0, 0, 0, 0, 0, 0, 0, 0, 0, 0] (by decide) (by decide)

/-- A successful csrc read only moves the offset forward and keeps it within
the buffer. -/
theorem readCsrcs_ok_le {buf : List Nat} {off n : Nat} {cs : List Nat} {off2 : Nat}
    (h : readCsrcs buf off n = .ok (cs, off2)) (hle : off ≤ buf.length) :
    off ≤ off2 ∧ off2 ≤ buf.length := by
  induction n generalizing off cs with
  | zero =>
    simp only [readCsrcs] at h
    cases h
    omega
  | succ n ih =>
    simp only [readCsrcs] at h
    split at h
    · cases h
    · next hlen =>
      cases hr : readCsrcs buf (off + 4) n with
      | error e => rw [hr] at h; cases h
      | ok v =>
        obtain ⟨rest, o2⟩ := v
        rw [hr] at h
        cases h
        have := ih hr (by omega)
        omega

/-- A successful extension parse only moves the offset forward and keeps it
within the buffer. -/
theorem parseExt_ok_le {buf : List Nat} {off : Nat} {flag : Bool}
    {eh : Option RtpExtension} {off2 : Nat}
    (h : parseExt buf off flag = .ok (eh, off2)) (hle : off ≤ buf.length) :
    off ≤ off2 ∧ off2 ≤ buf.length := by
  unfold parseExt at h
  split at h
  · split at h
    · cases h
    · simp only [] at h
      split at h
      · cases h
      · cases h
        omega
  · cases h
    omega

/-- A successful payload-end computation stays between the offset and the end
of the buffer. -/
theorem payloadEnd_ok_le {buf : List Nat} {off : Nat} {flag : Bool} {pe : Nat}
    (h : payloadEnd buf off flag = .ok pe) (hle : off ≤ buf.length) :
    off ≤ pe ∧ pe ≤ buf.length := by
  unfold payloadEnd at h
  split at h
  · split at h
    · cases h
    · simp only [] at h
      split at h
      · cases h
      · next hpad =>
        cases h
        push_neg at hpad
        omega
  · cases h
    omega

/-- With the padding flag set, a successful payload-end computation pins down
the declared padding length and the payload end. -/
theorem payloadEnd_ok_pad {buf : List Nat} {off : Nat} {pe : Nat}
    (h : payloadEnd buf off true = .ok pe) :
    1 ≤ lastByte buf ∧ lastByte buf ≤ buf.length - off ∧ pe = buf.length - lastByte buf := by
  unfold payloadEnd at h
  rw [if_pos rfl] at h
  split at h
  · cases h
  · simp only [] at h
    split at h
    · cases h
    · next hpad =>
      cases h
      push_neg at hpad
      omega

/-- Inversion of a successful parse: the buffer is at least 12 bytes, the
payload offset is inside the buffer, and the payload is the slice from that
offset to the payload end computed by the padding section. -/
theorem parse_ok_inv {buf : List Nat} {pkt : RtpPacket}
    (h : RtpPacket.parse buf = .ok pkt) :
    12 ≤ buf.length ∧ pkt.payload_offset ≤ buf.length ∧
    ∃ pe, pkt.payload_offset ≤ pe ∧ pe ≤ buf.length ∧
      pkt.payload = extract buf pkt.payload_offset pe ∧
      payloadEnd buf pkt.payload_offset pkt.header.padding = .ok pe := by
  unfold RtpPacket.parse at h
  split at h
  · cases h
  · next h12 =>
    simp only [] at h
    split at h
    · cases h
    · split at h
      · cases h
      · next cs off1 hr =>
        split at h
        · cases h
        · next eh off he =>
          split at h
          · cases h
          · next pe hp =>
            cases h
            have h1 := readCsrcs_ok_le hr (by omega)
            have h2 := parseExt_ok_le he (by omega)
            have h3 := payloadEnd_ok_le hp (by omega)
            refine ⟨by omega, ?_, pe, ?_, h3.2, rfl, hp⟩
            · show off ≤ buf.length
              omega
            · show off ≤ pe
              omega

/-- C6: whenever parse succeeds with the padding flag set, the declared padding
length k (the last byte) satisfies 1 ≤ k ≤ payload_len, where payload_len is
what remains after the fixed header, contributing sources and extension, and
the returned payload has length payload_len - k; by contraposition a declared
length of 0 or one exceeding payload_len never yields a packet with the
padding flag set. -/
theorem C6_padding_correct (buf : List Nat) (pkt : RtpPacket)
    (h : RtpPacket.parse buf = .ok pkt) (hp : pkt.header.padding = true) :
    1 ≤ lastByte buf ∧ lastByte buf ≤ buf.length - pkt.payload_offset ∧
    pkt.payload.length = (buf.length - pkt.payload_offset) - lastByte buf := by
  obtain ⟨h12, hoff, pe, hpe1, hpe2, hpl, hend⟩ := parse_ok_inv h
  rw [hp] at hend
  obtain ⟨k1, k2, k3⟩ := payloadEnd_ok_pad hend
  refine ⟨k1, k2, ?_⟩
  rw [hpl]
  unfold extract
  rw [List.length_drop, List.length_take]
  omega

/-- C6, witness: a concrete padded buffer (no extension, padding length 2 over
a 4-byte post-header region) whose parsed payload has length 2. -/
theorem C6_padding_witness :
    1 ≤ lastByte [0xA0, 96, 0, 1, 0, 0, 0, 2, 0, 0, 0, 3, 9, 9, 9, 2] ∧
    lastByte [0xA0, 96, 0, 1, 0, 0, 0, 2, 0, 0, 0, 3, 9, 9, 9, 2] ≤
      (16 : Nat) - 12 ∧
    ([9, 9] : List Nat).length =
      ((16 : Nat) - 12) - lastByte [0xA0, 96, 0, 1, 0, 0, 0, 2, 0, 0, 0, 3, 9, 9, 9, 2] :=
  C6_padding_correct [0xA0, 96, 0, 1, 0, 0, 0, 2, 0, 0, 0, 3, 9, 9, 9, 2]
    { header := { version := 2, padding := true, extension := false, csrc_count := 0,
                  marker := false, payload_type := 96, sequence_number := 1,
                  timestamp := 2, ssrc := 3, csrcs := [], extension_header := none },
      payload_offset := 12, payload := [9, 9] }
    rfl rfl

/-- C10: parse is total by construction, and on success the payload slice is
well formed: the payload offset plus the payload length never exceeds the
buffer length, and the payload is exactly the in-bounds slice of the buffer
between those positions. -/
theorem C10_parse_bounds (buf : List Nat) (pkt : RtpPacket)
    (h : RtpPacket.parse buf = .ok pkt) :
    pkt.payload_offset + pkt.payload.length ≤ buf.length ∧
    pkt.payload = extract buf pkt.payload_offset (pkt.payload_offset + pkt.payload.length) := by
  obtain ⟨h12, hoff, pe, hpe1, hpe2, hpl, hend⟩ := parse_ok_inv h
  have hlen : pkt.payload.length = pe - pkt.payload_offset := by
    rw [hpl]
    unfold extract
    rw [List.length_drop, List.length_take]
    omega
  have hsum : pkt.payload_offset + pkt.payload.length = pe := by omega
  rw [hsum]
  exact ⟨by omega, hpl⟩

/-- C10, witness: the slice bounds at a concrete 17-byte basic packet. -/
theorem C10_parse_bounds_witness :
    (12 : Nat) + ([1, 2, 3, 4, 5] : List Nat).length ≤
      ([0x80, 96, 0, 1, 0, 0, 0, 2, 0, 0, 0, 3, 1, 2, 3, 4, 5] : List Nat).length ∧
    ([1, 2, 3, 4, 5] : List Nat) =
      extract [0x80, 96, 0, 1, 0, 0, 0, 2, 0, 0, 0, 3, 1, 2, 3, 4, 5] 12
        (12 + ([1, 2, 3, 4, 5] : List Nat).length) :=
  C10_parse_bounds [0x80, 96, 0, 1, 0, 0, 0, 2, 0, 0, 0, 3, 1, 2, 3, 4, 5]
    { header := { version := 2, padding := false, extension := false, csrc_count := 0,
                  marker := false, payload_type := 96, sequence_number := 1,
                  timestamp := 2, ssrc := 3, csrcs := [], extension_header := none },
      payload_offset := 12, payload := [1, 2, 3, 4, 5] }
    rfl

/-- The common boundary-emission pattern of the analyzer sub-functions leaves
in_frame true exactly when the emitted boundary is None or Start. -/
theorem emit_balance (a : FrameAnalyzer) (s e : Bool) :
    (({ a with in_frame := !is_closing (boundary_of s e) } : FrameAnalyzer).in_frame = true ↔
      (boundary_of s e = .None ∨ boundary_of s e = .Start)) := by
  cases s <;> cases e <;> simp [boundary_of, is_closing]

/-- analyze_generic satisfies the in_frame balance property. -/
theorem analyze_generic_balance (a : FrameAnalyzer) (pkt : RtpPacket) :
    ((a.analyze_generic pkt).2.in_frame = true ↔
      ((a.analyze_generic pkt).1 = .None ∨ (a.analyze_generic pkt).1 = .Start)) := by
  unfold FrameAnalyzer.analyze_generic
  cases a.in_frame <;> cases pkt.header.marker <;> simp [boundary_of]

/-- analyze_avc satisfies the in_frame balance property. -/
theorem analyze_avc_balance (a : FrameAnalyzer) (pkt : RtpPacket) :
    ((a.analyze_avc pkt).2.in_frame = true ↔
      ((a.analyze_avc pkt).1 = .None ∨ (a.analyze_avc pkt).1 = .Start)) := by
  unfold FrameAnalyzer.analyze_avc
  split
  · exact analyze_generic_balance a pkt
  · split
    all_goals exact emit_balance a _ _

/-- analyze_hevc satisfies the in_frame balance property. -/
theorem analyze_hevc_balance (a : FrameAnalyzer) (pkt : RtpPacket) :
    ((a.analyze_hevc pkt).2.in_frame = true ↔
      ((a.analyze_hevc pkt).1 = .None ∨ (a.analyze_hevc pkt).1 = .Start)) := by
  unfold FrameAnalyzer.analyze_hevc
  split
  · exact analyze_generic_balance a pkt
  · split
    all_goals exact emit_balance a _ _

/-- analyze_vp9 satisfies the in_frame balance property. -/
theorem analyze_vp9_balance (a : FrameAnalyzer) (pkt : RtpPacket) :
    ((a.analyze_vp9 pkt).2.in_frame = true ↔
      ((a.analyze_vp9 pkt).1 = .None ∨ (a.analyze_vp9 pkt).1 = .Start)) := by
  unfold FrameAnalyzer.analyze_vp9
  split
  · exact analyze_generic_balance a pkt
  · exact emit_balance a _ _

/-- analyze_av1 satisfies the in_frame balance property. -/
theorem analyze_av1_balance (a : FrameAnalyzer) (pkt : RtpPacket) :
    ((a.analyze_av1 pkt).2.in_frame = true ↔
      ((a.analyze_av1 pkt).1 = .None ∨ (a.analyze_av1 pkt).1 = .Start)) := by
  unfold FrameAnalyzer.analyze_av1
  split
  · exact analyze_generic_balance a pkt
  · exact emit_balance a _ _

/-- C7: the analyzer starts outside a frame, and after every analyze call, for
any prior analyzer state, any codec and any packet, in_frame is true exactly
when the boundary just returned was None or Start (equivalently, false exactly
after End or StartEnd); applied along any call sequence this gives the
invariant at every point. -/
theorem C7_analyzer_balance :
    FrameAnalyzer.new.in_frame = false ∧
    ∀ (a : FrameAnalyzer) (pkt : RtpPacket),
      ((a.analyze pkt).2.in_frame = true ↔
        ((a.analyze pkt).1 = .None ∨ (a.analyze pkt).1 = .Start)) := by
  refine ⟨rfl, fun a pkt => ?_⟩
  unfold FrameAnalyzer.analyze
  simp only []
  split
  · exact analyze_avc_balance _ pkt
  · exact analyze_hevc_balance _ pkt
  · exact analyze_vp9_balance _ pkt
  · exact analyze_av1_balance _ pkt
  · exact analyze_generic_balance _ pkt

/-- List.any respects pointwise-equal predicates. -/
theorem any_ext {α : Type} (l : List α) (f g : α → Bool) (h : ∀ x, f x = g x) :
    l.any f = l.any g := by
  induction l with
  | nil => rfl
  | cons x xs ih => simp [List.any_cons, h x, ih]

/-- The AVC loop-body test agrees with the spec-side Start qualification. -/
theorem isAvcStart_eq (payload : List Nat) :
    isAvcStart payload = qualifiesStart .Avc payload := by
  unfold isAvcStart qualifiesStart
  cases hp : parse_avc_payload_header payload with
  | error e => rfl
  | ok v =>
    obtain ⟨k, off⟩ := v
    cases k
    case FuA s e t => cases s <;> rfl
    case FuB s e t => cases s <;> rfl
    all_goals rfl

/-- The HEVC loop-body test agrees with the spec-side Start qualification. -/
theorem isHevcStart_eq (payload : List Nat) :
    isHevcStart payload = qualifiesStart .Hevc payload := by
  unfold isHevcStart qualifiesStart
  cases hp : parse_hevc_payload_header payload with
  | error e => rfl
  | ok v =>
    obtain ⟨k, off⟩ := v
    cases k
    case Fu s e t => cases s <;> rfl
    all_goals rfl

/-- The VP9 loop-body test agrees with the spec-side Start qualification. -/
theorem isVp9Start_eq (payload : List Nat) :
    isVp9Start payload = qualifiesStart .Vp9 payload := by
  unfold isVp9Start qualifiesStart
  cases hp : Vp9PayloadDesc.parse payload with
  | error e => rfl
  | ok v => rfl

/-- C2: for every reassembler state holding a collector at a timestamp and
every codec tag, the readiness predicate is true exactly when the collector
has seen the marker and some buffered payload qualifies as a Start under the
codec's rules (Single or aggregation or FU with S set for AVC; Single, Ap,
Pacsi or FU with S set for HEVC; B bit set for VP9; always for AV1/Unknown). -/
theorem C2_readiness_iff (s : FrameReassembler) (ts : Nat) (codec : Codec)
    (entry : FrameCollector) (h : s.frames ts = some entry) :
    s.frame_ready_to_flush ts codec =
      (entry.seen_marker && startCondition codec entry.packets) := by
  unfold FrameReassembler.frame_ready_to_flush
  rw [h]
  cases hm : entry.seen_marker with
  | false => simp [hm]
  | true =>
    simp only [hm, Bool.not_true, Bool.false_eq_true, if_false, Bool.true_and]
    cases codec with
    | Avc => exact any_ext _ _ _ (fun p : OwnedPkt => isAvcStart_eq p.payload)
    | Hevc => exact any_ext _ _ _ (fun p : OwnedPkt => isHevcStart_eq p.payload)
    | Vp9 => exact any_ext _ _ _ (fun p : OwnedPkt => isVp9Start_eq p.payload)
    | Av1 => rfl
    | Unknown => rfl

/-- C2, witness: the readiness predicate at a concrete one-collector state. -/
theorem C2_readiness_iff_witness :
    FrameReassembler.frame_ready_to_flush
      { analyzer := FrameAnalyzer.new, current_ssrc := none, codec := some .Avc,
        frames := fun t => if t = 5 then
          some { packets := [⟨100, [0x65]⟩], seen_marker := true } else none,
        config := ReorderConfig.default } 5 .Avc =
      (true && startCondition .Avc [⟨100, [0x65]⟩]) :=
  C2_readiness_iff _ 5 .Avc { packets := [⟨100, [0x65]⟩], seen_marker := true } rfl

/-- A list starting with the 4-byte start code keeps that property under
appending on the right. -/
theorem take4_of_sc {out : List Nat} (h : out.take 4 = startCode) (l : List Nat) :
    (out ++ l).take 4 = startCode := by
  have hlen : 4 ≤ out.length := by
    have := congrArg List.length h
    simp [startCode] at this
    omega
  rw [List.take_append_of_le_length hlen, h]

/-- Appending a start-code block to a start-code-prefixed (or empty) buffer
yields a start-code prefix. -/
theorem sc_prefix_append (out l : List Nat) (h1 : out = [] ∨ out.take 4 = startCode) :
    (out ++ (startCode ++ l)).take 4 = startCode := by
  rcases h1 with h | h
  · subst h; rfl
  · exact take4_of_sc h _

/-- One aggregation step advances the offset by at least 2 and produces a
start-code-prefixed chunk. -/
theorem agg_step_some {payload : List Nat} {i j : Nat} {chunk : List Nat}
    (h : agg_step payload i = some (j, chunk)) :
    i + 2 ≤ j ∧ payload.length < i + 2 ∨
    (i + 2 ≤ j ∧ ∃ c, chunk = startCode ++ c) := by
  unfold agg_step at h
  split at h
  · simp only [] at h
    split at h
    · cases h
    · simp only [Option.some.injEq, Prod.mk.injEq] at h
      exact Or.inr ⟨by omega, _, h.2.symm⟩
  · cases h

/-- Every aggregation-loop output is a concatenation of start-code-prefixed
NAL units. -/
theorem agg_loop_chunks (payload : List Nat) : ∀ (fuel i : Nat),
    ∃ chunks : List (List Nat),
      agg_loop payload fuel i = (chunks.map (fun c => startCode ++ c)).flatten := by
  intro fuel
  induction fuel with
  | zero => exact fun i => ⟨[], rfl⟩
  | succ f ih =>
    intro i
    cases hs : agg_step payload i with
    | none => exact ⟨[], by simp [agg_loop, hs]⟩
    | some v =>
      obtain ⟨j, chunk⟩ := v
      rcases agg_step_some hs with ⟨hij, hlen⟩ | ⟨hij, c, hc⟩
      · exact absurd hs (by unfold agg_step; rw [if_neg (by omega)]; simp)
      · obtain ⟨cs, hcs⟩ := ih j
        exact ⟨c :: cs, by simp [agg_loop, hs, hc, hcs]⟩

/-- The aggregation loop emits nothing or a start-code-prefixed byte string. -/
theorem agg_loop_sc_head (payload : List Nat) (fuel i : Nat) :
    agg_loop payload fuel i = [] ∨ (agg_loop payload fuel i).take 4 = startCode := by
  obtain ⟨chunks, hc⟩ := agg_loop_chunks payload fuel i
  cases chunks with
  | nil => left; simp [hc]
  | cons c cs =>
    right
    rw [hc]
    simp only [List.map_cons, List.flatten_cons, List.append_assoc]
    rfl

/-- Concatenating an empty-or-start-code-prefixed block onto an
empty-or-start-code-prefixed buffer preserves that disjunction. -/
theorem sc_prefix_append_opt (out g : List Nat)
    (h1 : out = [] ∨ out.take 4 = startCode) (hg : g = [] ∨ g.take 4 = startCode) :
    (out ++ g) = [] ∨ (out ++ g).take 4 = startCode := by
  rcases h1 with h | h
  · subst h
    simpa using hg
  · exact Or.inr (take4_of_sc h g)

/-- append_avc_payload preserves the start-code-prefix invariant whenever the
payload depacketizes: the output stays empty or start-code-prefixed, and it is
start-code-prefixed whenever the fu_open flag is set. -/
theorem append_avc_inv (payload out : List Nat) (fu inc : Bool)
    (hok : isOkE (parse_avc_payload_header payload) = true)
    (h1 : out = [] ∨ out.take 4 = startCode)
    (h2 : fu = true → out.take 4 = startCode) :
    ((append_avc_payload payload out fu inc).1 = [] ∨
      (append_avc_payload payload out fu inc).1.take 4 = startCode) ∧
    ((append_avc_payload payload out fu inc).2.1 = true →
      (append_avc_payload payload out fu inc).1.take 4 = startCode) := by
  unfold append_avc_payload
  cases hp : parse_avc_payload_header payload with
  | error e => rw [hp] at hok; cases hok
  | ok v =>
    obtain ⟨k, off⟩ := v
    simp only [hp]
    cases k with
    | Single t =>
      refine ⟨Or.inr ?_, fun _ => ?_⟩ <;>
        · simp only [List.append_assoc]
          exact sc_prefix_append out _ h1
    | StapA =>
      exact ⟨sc_prefix_append_opt out _ h1 (agg_loop_sc_head payload payload.length 1),
        fun hf => take4_of_sc (h2 hf) _⟩
    | StapB =>
      refine ⟨Or.inr ?_, fun _ => ?_⟩ <;>
        · simp only [List.append_assoc]
          exact sc_prefix_append out _ h1
    | Mtap16 =>
      refine ⟨Or.inr ?_, fun _ => ?_⟩ <;>
        · simp only [List.append_assoc]
          exact sc_prefix_append out _ h1
    | Mtap24 =>
      refine ⟨Or.inr ?_, fun _ => ?_⟩ <;>
        · simp only [List.append_assoc]
          exact sc_prefix_append out _ h1
    | Unknown t =>
      refine ⟨Or.inr ?_, fun _ => ?_⟩ <;>
        · simp only [List.append_assoc]
          exact sc_prefix_append out _ h1
    | FuA s e t =>
      cases s with
      | true =>
        refine ⟨Or.inr ?_, fun _ => ?_⟩ <;>
          · simp only [if_true, List.append_assoc]
            exact sc_prefix_append out _ h1
      | false =>
        cases fu with
        | false => exact ⟨h1, fun hf => by cases hf⟩
        | true =>
          refine ⟨Or.inr ?_, fun _ => ?_⟩ <;>
            · simp only []
              exact take4_of_sc (h2 rfl) _
    | FuB s e t =>
      cases s with
      | true =>
        refine ⟨Or.inr ?_, fun _ => ?_⟩ <;>
          · simp only [if_true, List.append_assoc]
            exact sc_prefix_append out _ h1
      | false =>
        cases fu with
        | false => exact ⟨h1, fun hf => by cases hf⟩
        | true =>
          refine ⟨Or.inr ?_, fun _ => ?_⟩ <;>
            · simp only []
              exact take4_of_sc (h2 rfl) _

/-- append_hevc_payload preserves the start-code-prefix invariant whenever the
payload depacketizes. -/
theorem append_hevc_inv (payload out : List Nat) (fu inc : Bool)
    (hok : isOkE (parse_hevc_payload_header payload) = true)
    (h1 : out = [] ∨ out.take 4 = startCode)
    (h2 : fu = true → out.take 4 = startCode) :
    ((append_hevc_payload payload out fu inc).1 = [] ∨
      (append_hevc_payload payload out fu inc).1.take 4 = startCode) ∧
    ((append_hevc_payload payload out fu inc).2.1 = true →
      (append_hevc_payload payload out fu inc).1.take 4 = startCode) := by
  unfold append_hevc_payload
  cases hp : parse_hevc_payload_header payload with
  | error e => rw [hp] at hok; cases hok
  | ok v =>
    obtain ⟨k, off⟩ := v
    simp only [hp]
    cases k with
    | Single t =>
      refine ⟨Or.inr ?_, fun _ => ?_⟩ <;>
        · simp only [List.append_assoc]
          exact sc_prefix_append out _ h1
    | Pacsi =>
      refine ⟨Or.inr ?_, fun _ => ?_⟩ <;>
        · simp only [List.append_assoc]
          exact sc_prefix_append out _ h1
    | Unknown t =>
      refine ⟨Or.inr ?_, fun _ => ?_⟩ <;>
        · simp only [List.append_assoc]
          exact sc_prefix_append out _ h1
    | Ap =>
      exact ⟨sc_prefix_append_opt out _ h1 (agg_loop_sc_head payload payload.length 2),
        fun hf => take4_of_sc (h2 hf) _⟩
    | Fu s e t =>
      cases s with
      | true =>
        refine ⟨Or.inr ?_, fun _ => ?_⟩ <;>
          · simp only [if_true, List.append_assoc]
            exact sc_prefix_append out _ h1
      | false =>
        cases fu with
        | false => exact ⟨h1, fun hf => by cases hf⟩
        | true =>
          refine ⟨Or.inr ?_, fun _ => ?_⟩ <;>
            · simp only []
              exact take4_of_sc (h2 rfl) _

/-- append_avc_payload only ever appends to the output buffer. -/
theorem append_avc_extends (payload out : List Nat) (fu inc : Bool) :
    ∃ l, (append_avc_payload payload out fu inc).1 = out ++ l := by
  unfold append_avc_payload
  cases hp : parse_avc_payload_header payload with
  | error e => exact ⟨payload, rfl⟩
  | ok v =>
    obtain ⟨k, off⟩ := v
    simp only [hp]
    cases k with
    | Single t => exact ⟨_, (List.append_assoc _ _ _)⟩
    | StapA => exact ⟨_, rfl⟩
    | StapB => exact ⟨_, (List.append_assoc _ _ _)⟩
    | Mtap16 => exact ⟨_, (List.append_assoc _ _ _)⟩
    | Mtap24 => exact ⟨_, (List.append_assoc _ _ _)⟩
    | Unknown t => exact ⟨_, (List.append_assoc _ _ _)⟩
    | FuA s e t =>
      cases s with
      | true =>
        refine ⟨startCode ++ [(byteAt payload 0 &&& 0xE0) ||| (t &&& 0x1F)] ++
          payload.drop off, ?_⟩
        simp only [if_true]
        simp [List.append_assoc]
      | false =>
        cases fu with
        | false => exact ⟨[], by simp⟩
        | true => exact ⟨payload.drop off, by simp⟩
    | FuB s e t =>
      cases s with
      | true =>
        refine ⟨startCode ++ [(byteAt payload 0 &&& 0xE0) ||| (t &&& 0x1F)] ++
          payload.drop off, ?_⟩
        simp only [if_true]
        simp [List.append_assoc]
      | false =>
        cases fu with
        | false => exact ⟨[], by simp⟩
        | true => exact ⟨payload.drop off, by simp⟩

/-- append_hevc_payload only ever appends to the output buffer. -/
theorem append_hevc_extends (payload out : List Nat) (fu inc : Bool) :
    ∃ l, (append_hevc_payload payload out fu inc).1 = out ++ l := by
  unfold append_hevc_payload
  cases hp : parse_hevc_payload_header payload with
  | error e => exact ⟨payload, rfl⟩
  | ok v =>
    obtain ⟨k, off⟩ := v
    simp only [hp]
    cases k with
    | Single t => exact ⟨_, (List.append_assoc _ _ _)⟩
    | Pacsi => exact ⟨_, (List.append_assoc _ _ _)⟩
    | Unknown t => exact ⟨_, (List.append_assoc _ _ _)⟩
    | Ap => exact ⟨_, rfl⟩
    | Fu s e t =>
      cases s with
      | true =>
        refine ⟨startCode ++ [(byteAt payload 0 &&& 0x81) ||| ((t <<< 1) &&& 0x7E),
          byteAt payload 1] ++ payload.drop off, ?_⟩
        simp only [if_true]
        simp [List.append_assoc]
      | false =>
        cases fu with
        | false => exact ⟨[], by simp⟩
        | true => exact ⟨payload.drop off, by simp⟩

/-- The assembly fold under AVC or HEVC preserves the start-code-prefix
invariant whenever every buffered payload depacketizes. -/
theorem assemble_fold_inv (codec : Codec) (hc : codec = .Avc ∨ codec = .Hevc)
    (pkts : List OwnedPkt) :
    ∀ (st : List Nat × Bool × Bool × Bool),
    (∀ p ∈ pkts, depOk codec p.payload = true) →
    (st.1 = [] ∨ st.1.take 4 = startCode) →
    (st.2.1 = true → st.1.take 4 = startCode) →
    (st.2.2.1 = true → st.1.take 4 = startCode) →
    ((pkts.foldl (assemble_step codec) st).1 = [] ∨
      (pkts.foldl (assemble_step codec) st).1.take 4 = startCode) := by
  induction pkts with
  | nil => intro st hall h1 h2 h3; exact h1
  | cons p ps ih =>
    intro st hall h1 h2 h3
    obtain ⟨out, fuA, fuH, inc⟩ := st
    rcases hc with hc | hc <;> subst hc
    · have hp := hall p (by simp)
      obtain ⟨g1, g2⟩ := append_avc_inv p.payload out fuA inc hp h1 h2
      obtain ⟨l, hl⟩ := append_avc_extends p.payload out fuA inc
      refine ih _ (fun q hq => hall q (by simp [hq])) g1 g2 ?_
      intro hf
      show (append_avc_payload p.payload out fuA inc).1.take 4 = startCode
      rw [hl]
      exact take4_of_sc (h3 hf) l
    · have hp := hall p (by simp)
      obtain ⟨g1, g2⟩ := append_hevc_inv p.payload out fuH inc hp h1 h3
      obtain ⟨l, hl⟩ := append_hevc_extends p.payload out fuH inc
      refine ih _ (fun q hq => hall q (by simp [hq])) g1 ?_ g2
      intro hf
      show (append_hevc_payload p.payload out fuH inc).1.take 4 = startCode
      rw [hl]
      exact take4_of_sc (h2 hf) l

/-- C4, counterexample: two emitted AVC frames that do not begin with the
start code. A lone StapA payload 18 with no aggregated units emits the empty
frame, and a frame whose first packet's payload 7C fails the depacketizer
(FU-A indicator with no FU header) is appended raw, so the emission begins
with 7C. -/
theorem C4_startcode_counterexample :
    (((FrameReassembler.new.set_codec .Avc).push_packet (mkPkt [0x18] true 50 7 3)).1 =
      some [] ∧ ¬ (([] : List Nat).take 4 = startCode)) ∧
    ((((FrameReassembler.new.set_codec .Avc).push_packet
        (mkPkt [0x7C] false 100 8 3)).2.push_packet (mkPkt [0x65] true 101 8 3)).1 =
      some [0x7C, 0, 0, 0, 1, 0x65] ∧
      ¬ (([0x7C, 0, 0, 0, 1, 0x65] : List Nat).take 4 = startCode)) := by
  exact ⟨⟨rfl, by decide⟩, ⟨rfl, by decide⟩⟩

/-- C4, amended: every aggregation-loop emission is a concatenation of NAL
units each preceded by the 4-byte start code; and every emitted AVC or HEVC
frame all of whose buffered payloads depacketize successfully is either empty
or begins with the 4-byte start code (the raw-append fallback for payloads the
depacketizer rejects, and the empty emission of an aggregation packet with no
complete unit, are the only exceptions in the code). -/
theorem C4_startcode_amended :
    (∀ (payload : List Nat) (fuel i : Nat), ∃ chunks : List (List Nat),
        agg_loop payload fuel i = (chunks.map (fun c => startCode ++ c)).flatten) ∧
    (∀ (s : FrameReassembler) (ts : Nat) (entry : FrameCollector) (out : List Nat),
        s.frames ts = some entry →
        (s.codec = some .Avc ∨ s.codec = some .Hevc) →
        (∀ p ∈ entry.packets, depOk (s.codec.getD .Unknown) p.payload = true) →
        s.assemble_frame ts = some out →
        (out = [] ∨ out.take 4 = startCode)) := by
  refine ⟨fun payload fuel i => agg_loop_chunks payload fuel i, ?_⟩
  intro s ts entry out hent hcodec hall hasm
  rcases hcodec with hc | hc
  · simp only [FrameReassembler.assemble_frame, hent, hc, Option.getD_some] at hasm hall
    split at hasm
    · cases hasm
    · simp only [Option.some.injEq] at hasm
      subst hasm
      exact assemble_fold_inv .Avc (Or.inl rfl) entry.packets _ hall (Or.inl rfl)
        (fun h => by cases h) (fun h => by cases h)
  · simp only [FrameReassembler.assemble_frame, hent, hc, Option.getD_some] at hasm hall
    split at hasm
    · cases hasm
    · simp only [Option.some.injEq] at hasm
      subst hasm
      exact assemble_fold_inv .Hevc (Or.inr rfl) entry.packets _ hall (Or.inl rfl)
        (fun h => by cases h) (fun h => by cases h)

/-- C4, witness: the amended statement at a concrete two-fragment AVC frame. -/
theorem C4_startcode_amended_witness :
    ([0, 0, 0, 1, 0x65, 0xAA, 0xBB] : List Nat) = [] ∨
    ([0, 0, 0, 1, 0x65, 0xAA, 0xBB] : List Nat).take 4 = startCode :=
  C4_startcode_amended.2
    { analyzer := FrameAnalyzer.new, current_ssrc := some 3, codec := some .Avc,
      frames := fun t => if t = 9 then
        some { packets := [⟨100, [0x7C, 0x85, 0xAA]⟩, ⟨101, [0x7C, 0x45, 0xBB]⟩],
               seen_marker := true } else none,
      config := ReorderConfig.default } 9
    { packets := [⟨100, [0x7C, 0x85, 0xAA]⟩, ⟨101, [0x7C, 0x45, 0xBB]⟩],
      seen_marker := true }
    [0, 0, 0, 1, 0x65, 0xAA, 0xBB] rfl (Or.inl rfl) (by decide) rfl

/-- C8: when a packet arrives whose ssrc differs from the recorded one, the
reset clears every frame collector before the packet is absorbed, and from
that packet on the sequence of emitted frames is independent of everything
ingested before the change (given the same configured codec and configuration):
two reassemblers with arbitrary different histories produce identical
emissions, so no payload bytes ingested under a previous ssrc can appear in
any frame emitted afterwards. -/
theorem C8_ssrc_reset (s1 s2 : FrameReassembler) (p : RtpPacket) (ps : List RtpPacket)
    (a b : Nat)
    (h1 : s1.current_ssrc = some a) (h2 : s2.current_ssrc = some b)
    (ha : a ≠ p.header.ssrc) (hb : b ≠ p.header.ssrc)
    (hc : s1.codec = s2.codec) (hcfg : s1.config = s2.config) :
    (step_ssrc s1 p).frames = (fun _ => none) ∧
    (pushAll s1 (p :: ps)).1 = (pushAll s2 (p :: ps)).1 := by
  have key : step_ssrc s1 p = step_ssrc s2 p := by
    obtain ⟨a1, ss1, c1, f1, g1⟩ := s1
    obtain ⟨a2, ss2, c2, f2, g2⟩ := s2
    simp only at h1 h2 hc hcfg
    subst h1
    subst h2
    subst hc
    subst hcfg
    simp only [step_ssrc]
    rw [if_pos ha, if_pos hb]
  constructor
  · simp only [step_ssrc, h1]
    rw [if_pos ha]
  · have kp : s1.push_packet p = s2.push_packet p := by
      unfold FrameReassembler.push_packet
      rw [key]
    simp only [pushAll]
    rw [kp]

/-- C8, witness: the reset and the emission agreement at two concrete states
with different histories (one holds a buffered collector, the other does not),
the same codec AVC and default configuration, and a packet with a fresh ssrc. -/
theorem C8_ssrc_reset_witness :
    (step_ssrc
      { analyzer := FrameAnalyzer.new.set_codec .Avc, current_ssrc := some 7,
        codec := some .Avc,
        frames := fun t => if t = 4 then
          some { packets := [⟨10, [0xAB]⟩], seen_marker := false } else none,
        config := ReorderConfig.default }
      (mkPkt [0x65] true 0 0 9)).frames = (fun _ => none) ∧
    (pushAll
      { analyzer := FrameAnalyzer.new.set_codec .Avc, current_ssrc := some 7,
        codec := some .Avc,
        frames := fun t => if t = 4 then
          some { packets := [⟨10, [0xAB]⟩], seen_marker := false } else none,
        config := ReorderConfig.default }
      [mkPkt [0x65] true 0 0 9]).1 =
    (pushAll
      { analyzer := FrameAnalyzer.new.set_codec .Avc, current_ssrc := some 8,
        codec := some .Avc, frames := fun _ => none,
        config := ReorderConfig.default }
      [mkPkt [0x65] true 0 0 9]).1 :=
  C8_ssrc_reset _ _ (mkPkt [0x65] true 0 0 9) [] 7 8 rfl rfl
    (by decide) (by decide) rfl rfl

/-- Setting current_ssrc to its present value is the identity. -/
theorem set_ssrc_self (s : FrameReassembler) (v : Option Nat) (h : s.current_ssrc = v) :
    { s with current_ssrc := v } = s := by
  obtain ⟨a1, ss1, c1, f1, g1⟩ := s
  simp only at h
  rw [h]

/-- Setting seen_marker to true on a collector that has it is the identity. -/
theorem seen_self {e : FrameCollector} (h : e.seen_marker = true) :
    { e with seen_marker := true } = e := by
  obtain ⟨pk, sm⟩ := e
  simp only at h
  rw [h]

/-- Re-inserting the same keyed packet is the identity on the map. -/
theorem insertPkt_idem (x : OwnedPkt) (l : List OwnedPkt) :
    insertPkt x (insertPkt x l) = insertPkt x l := by
  induction l with
  | nil => simp [insertPkt]
  | cons q qs ih =>
    by_cases h1 : x.seq < q.seq
    · simp [insertPkt, h1]
    · by_cases h2 : x.seq = q.seq
      · simp [insertPkt, h1, h2]
      · simp [insertPkt, h1, h2, ih]

/-- The stream-identity step records the packet's ssrc. -/
theorem step_ssrc_ssrc (s : FrameReassembler) (p : RtpPacket) :
    (step_ssrc s p).current_ssrc = some p.header.ssrc := rfl

/-- The stream-identity step does not change the codec. -/
theorem step_ssrc_codec (s : FrameReassembler) (p : RtpPacket) :
    (step_ssrc s p).codec = s.codec := by
  unfold step_ssrc
  simp only []
  split
  · split <;> rfl
  · rfl

/-- The codec-discovery step does not change current_ssrc. -/
theorem step_codec_ssrc (s : FrameReassembler) (p : RtpPacket) :
    (step_codec s p).current_ssrc = s.current_ssrc := by
  unfold step_codec
  simp only []
  split <;> rfl

/-- The insertion step does not change current_ssrc. -/
theorem step_insert_ssrc (s : FrameReassembler) (p : RtpPacket) :
    (step_insert s p).current_ssrc = s.current_ssrc := rfl

/-- The insertion step does not change the codec. -/
theorem step_insert_codec (s : FrameReassembler) (p : RtpPacket) :
    (step_insert s p).codec = s.codec := rfl

/-- The completion step does not change current_ssrc. -/
theorem step_flush_ssrc (s : FrameReassembler) (p : RtpPacket) :
    (step_flush s p).2.current_ssrc = s.current_ssrc := by
  unfold step_flush
  simp only []
  split
  · rfl
  · split
    · split <;> rfl
    · rfl

/-- The completion step does not change the codec. -/
theorem step_flush_codec (s : FrameReassembler) (p : RtpPacket) :
    (step_flush s p).2.codec = s.codec := by
  unfold step_flush
  simp only []
  split
  · rfl
  · split
    · split <;> rfl
    · rfl

/-- Every sub-analyzer leaves the stored codec unchanged: generic. -/
theorem analyze_generic_codec (a : FrameAnalyzer) (pkt : RtpPacket) :
    ((a.analyze_generic pkt).2).codec = a.codec := rfl

/-- Every sub-analyzer leaves the stored codec unchanged: AVC. -/
theorem analyze_avc_codec (a : FrameAnalyzer) (pkt : RtpPacket) :
    ((a.analyze_avc pkt).2).codec = a.codec := by
  unfold FrameAnalyzer.analyze_avc
  split
  · rfl
  · split <;> rfl

/-- Every sub-analyzer leaves the stored codec unchanged: HEVC. -/
theorem analyze_hevc_codec (a : FrameAnalyzer) (pkt : RtpPacket) :
    ((a.analyze_hevc pkt).2).codec = a.codec := by
  unfold FrameAnalyzer.analyze_hevc
  split
  · rfl
  · split <;> rfl

/-- Every sub-analyzer leaves the stored codec unchanged: VP9. -/
theorem analyze_vp9_codec (a : FrameAnalyzer) (pkt : RtpPacket) :
    ((a.analyze_vp9 pkt).2).codec = a.codec := by
  unfold FrameAnalyzer.analyze_vp9
  split <;> rfl

/-- Every sub-analyzer leaves the stored codec unchanged: AV1. -/
theorem analyze_av1_codec (a : FrameAnalyzer) (pkt : RtpPacket) :
    ((a.analyze_av1 pkt).2).codec = a.codec := by
  unfold FrameAnalyzer.analyze_av1
  split <;> rfl

/-- After analyze the analyzer's codec is always set (to the stored codec or
the guess). -/
theorem analyze_codec (a : FrameAnalyzer) (pkt : RtpPacket) :
    ((a.analyze pkt).2).codec = some (a.codec.getD (guess_codec pkt.payload)) := by
  unfold FrameAnalyzer.analyze
  simp only []
  split
  all_goals first
    | rw [analyze_avc_codec]
    | rw [analyze_hevc_codec]
    | rw [analyze_vp9_codec]
    | rw [analyze_av1_codec]
    | rw [analyze_generic_codec]

/-- After a push the recorded ssrc is the packet's. -/
theorem push_ssrc (s : FrameReassembler) (p : RtpPacket) :
    (s.push_packet p).2.current_ssrc = some p.header.ssrc := by
  unfold FrameReassembler.push_packet
  rw [step_flush_ssrc, step_insert_ssrc, step_codec_ssrc, step_ssrc_ssrc]

/-- After a push the codec is always set. -/
theorem push_codec_some (s : FrameReassembler) (p : RtpPacket) :
    ∃ c, (s.push_packet p).2.codec = some c := by
  unfold FrameReassembler.push_packet
  rw [step_flush_codec, step_insert_codec]
  unfold step_codec
  simp only []
  split
  · exact ⟨_, analyze_codec _ p⟩
  · next c heq =>
    exact ⟨c, heq⟩

/-- The readiness predicate depends only on the collector at the queried
timestamp. -/
theorem frame_ready_congr (s t : FrameReassembler) (ts : Nat) (c : Codec)
    (h : s.frames ts = t.frames ts) :
    s.frame_ready_to_flush ts c = t.frame_ready_to_flush ts c := by
  unfold FrameReassembler.frame_ready_to_flush
  rw [h]

/-- Assembly depends only on the codec, the collector at the queried timestamp
and the configuration. -/
theorem assemble_frame_congr (s t : FrameReassembler) (ts : Nat)
    (hc : s.codec = t.codec) (hf : s.frames ts = t.frames ts) (hg : s.config = t.config) :
    s.assemble_frame ts = t.assemble_frame ts := by
  unfold FrameReassembler.assemble_frame
  rw [hc, hf, hg]

/-- The completion step ignores the analyzer: two states equal in every other
field produce the same output, observationally equal successor states, and
keep the codec. -/
theorem step_flush_anairrel (x y : FrameAnalyzer) (S : Option Nat) (c : Codec)
    (F : Nat → Option FrameCollector) (G : ReorderConfig) (p : RtpPacket) :
    ((step_flush (FrameReassembler.mk x S (some c) F G) p).1 =
      (step_flush (FrameReassembler.mk y S (some c) F G) p).1) ∧
    ObsEq (step_flush (FrameReassembler.mk x S (some c) F G) p).2
      (step_flush (FrameReassembler.mk y S (some c) F G) p).2 ∧
    (step_flush (FrameReassembler.mk x S (some c) F G) p).2.codec = some c := by
  unfold step_flush
  simp only []
  cases hft : F p.header.timestamp with
  | none => exact ⟨rfl, ⟨rfl, rfl, rfl, rfl⟩, rfl⟩
  | some entry =>
    simp only []
    by_cases hsm : entry.seen_marker = true
    · rw [if_pos hsm, if_pos hsm]
      have hr : (FrameReassembler.mk x S (some c) F G).frame_ready_to_flush
          p.header.timestamp ((some c).getD .Unknown) =
        (FrameReassembler.mk y S (some c) F G).frame_ready_to_flush
          p.header.timestamp ((some c).getD .Unknown) :=
        frame_ready_congr _ _ _ _ rfl
      rw [hr]
      by_cases hrv : (FrameReassembler.mk y S (some c) F G).frame_ready_to_flush
          p.header.timestamp ((some c).getD .Unknown) = true
      · rw [if_pos hrv, if_pos hrv]
        exact ⟨assemble_frame_congr _ _ _ rfl rfl rfl, ⟨rfl, rfl, rfl, rfl⟩, rfl⟩
      · rw [if_neg hrv, if_neg hrv]
        exact ⟨rfl, ⟨rfl, rfl, rfl, rfl⟩, rfl⟩
    · rw [if_neg hsm, if_neg hsm]
      exact ⟨rfl, ⟨rfl, rfl, rfl, rfl⟩, rfl⟩

/-- The core of a push after the stream-identity step ignores the analyzer
except for carrying it along. -/
theorem push_core_anairrel (x y : FrameAnalyzer) (S : Option Nat) (c : Codec)
    (F : Nat → Option FrameCollector) (G : ReorderConfig) (p : RtpPacket) :
    ((step_flush (step_insert (step_codec (FrameReassembler.mk x S (some c) F G) p) p) p).1 =
      (step_flush (step_insert (step_codec (FrameReassembler.mk y S (some c) F G) p) p) p).1) ∧
    ObsEq (step_flush (step_insert (step_codec (FrameReassembler.mk x S (some c) F G) p) p) p).2
      (step_flush (step_insert (step_codec (FrameReassembler.mk y S (some c) F G) p) p) p).2 ∧
    (step_flush (step_insert (step_codec (FrameReassembler.mk x S (some c) F G) p) p) p).2.codec
      = some c := by
  have hx : step_insert (step_codec (FrameReassembler.mk x S (some c) F G) p) p =
      FrameReassembler.mk ((x.analyze p).2) S (some c)
        (fun t => if t = p.header.timestamp then
            some (insertedEntry (FrameReassembler.mk FrameAnalyzer.new S (some c) F G) p)
          else F t) G := rfl
  have hy : step_insert (step_codec (FrameReassembler.mk y S (some c) F G) p) p =
      FrameReassembler.mk ((y.analyze p).2) S (some c)
        (fun t => if t = p.header.timestamp then
            some (insertedEntry (FrameReassembler.mk FrameAnalyzer.new S (some c) F G) p)
          else F t) G := rfl
  rw [hx, hy]
  exact step_flush_anairrel _ _ S c _ G p

/-- push_packet ignores the analyzer: two states equal in every other field
produce the same output, observationally equal successors, and keep the codec. -/
theorem push_anairrel (x y : FrameAnalyzer) (S : Option Nat) (c : Codec)
    (F : Nat → Option FrameCollector) (G : ReorderConfig) (p : RtpPacket) :
    (((FrameReassembler.mk x S (some c) F G).push_packet p).1 =
      ((FrameReassembler.mk y S (some c) F G).push_packet p).1) ∧
    ObsEq ((FrameReassembler.mk x S (some c) F G).push_packet p).2
      ((FrameReassembler.mk y S (some c) F G).push_packet p).2 ∧
    ((FrameReassembler.mk x S (some c) F G).push_packet p).2.codec = some c := by
  unfold FrameReassembler.push_packet
  cases S with
  | none =>
    exact push_core_anairrel x y _ c F G p
  | some v =>
    by_cases hv : v ≠ p.header.ssrc
    · have hx : step_ssrc (FrameReassembler.mk x (some v) (some c) F G) p =
          FrameReassembler.mk (FrameAnalyzer.new.set_codec c) (some p.header.ssrc) (some c)
            (fun _ => none) G := by
        simp only [step_ssrc]
        rw [if_pos hv]
      have hy : step_ssrc (FrameReassembler.mk y (some v) (some c) F G) p =
          FrameReassembler.mk (FrameAnalyzer.new.set_codec c) (some p.header.ssrc) (some c)
            (fun _ => none) G := by
        simp only [step_ssrc]
        rw [if_pos hv]
      rw [hx, hy]
      exact push_core_anairrel _ _ _ c _ G p
    · have hx : step_ssrc (FrameReassembler.mk x (some v) (some c) F G) p =
          FrameReassembler.mk x (some p.header.ssrc) (some c) F G := by
        simp only [step_ssrc]
        rw [if_neg hv]
      have hy : step_ssrc (FrameReassembler.mk y (some v) (some c) F G) p =
          FrameReassembler.mk y (some p.header.ssrc) (some c) F G := by
        simp only [step_ssrc]
        rw [if_neg hv]
      rw [hx, hy]
      exact push_core_anairrel x y _ c F G p

/-- Emissions of a push sequence depend only on the observational state, once
a codec is set. -/
theorem pushAll_obs (qs : List RtpPacket) :
    ∀ (s t : FrameReassembler) (c : Codec), ObsEq s t → s.codec = some c →
    (pushAll s qs).1 = (pushAll t qs).1 := by
  induction qs with
  | nil => intro s t c hobs hcs; rfl
  | cons q qs ih =>
    intro s t c hobs hcs
    obtain ⟨a1, ss1, c1, f1, g1⟩ := s
    obtain ⟨a2, ss2, c2, f2, g2⟩ := t
    obtain ⟨h1, h2, h3, h4⟩ := hobs
    simp only at h1 h2 h3 h4 hcs
    subst hcs
    subst h1
    subst h2
    subst h3
    subst h4
    have hp := push_anairrel a1 a2 ss1 c f1 g1 q
    simp only [pushAll]
    rw [hp.1]
    rw [ih _ _ c hp.2.1 hp.2.2]

/-- Pushing a packet into a state that already holds exactly that packet's
entry (below the buffering cap), whose marker has been recorded, and whose
collector is not ready, returns nothing and only advances the analyzer. -/
theorem push_noop (s' : FrameReassembler) (p : RtpPacket) (entry : FrameCollector)
    (base : List OwnedPkt) (c : Codec)
    (F1 : s'.current_ssrc = some p.header.ssrc)
    (F2 : s'.codec = some c)
    (F3 : s'.frames p.header.timestamp = some entry)
    (hlt : entry.packets.length < s'.config.max_buffered_packets_per_frame)
    (F4 : entry.packets = insertPkt { seq := p.header.sequence_number, payload := p.payload } base)
    (F5 : p.header.marker = true → entry.seen_marker = true)
    (F6 : entry.seen_marker = true → s'.frame_ready_to_flush p.header.timestamp c = false) :
    s'.push_packet p = (none, { s' with analyzer := (s'.analyzer.analyze p).2 }) := by
  obtain ⟨A0, S0, C0, Fr0, G0⟩ := s'
  simp only at F1 F2 F3 hlt F6
  subst F1
  subst F2
  unfold FrameReassembler.push_packet
  have e1 : step_ssrc (FrameReassembler.mk A0 (some p.header.ssrc) (some c) Fr0 G0) p =
      FrameReassembler.mk A0 (some p.header.ssrc) (some c) Fr0 G0 := by
    simp only [step_ssrc]
    rw [if_neg (fun h => h rfl)]
  rw [e1]
  have e2 : step_codec (FrameReassembler.mk A0 (some p.header.ssrc) (some c) Fr0 G0) p =
      FrameReassembler.mk ((A0.analyze p).2) (some p.header.ssrc) (some c) Fr0 G0 := rfl
  rw [e2]
  have hIE : insertedEntry (FrameReassembler.mk ((A0.analyze p).2) (some p.header.ssrc)
      (some c) Fr0 G0) p = entry := by
    unfold insertedEntry
    simp only [F3, Option.getD_some]
    obtain ⟨pk, sm⟩ := entry
    simp only at F4 F5 hlt
    rw [if_neg (Nat.not_le.mpr hlt)]
    simp only []
    rw [F4, insertPkt_idem, ← F4]
    cases hmk : p.header.marker with
    | false => rfl
    | true => simp [F5 hmk]
  have e3 : step_insert (FrameReassembler.mk ((A0.analyze p).2) (some p.header.ssrc)
      (some c) Fr0 G0) p =
      FrameReassembler.mk ((A0.analyze p).2) (some p.header.ssrc) (some c) Fr0 G0 := by
    unfold step_insert
    simp only [hIE]
    have hFun : (fun t => if t = p.header.timestamp then some entry else Fr0 t) = Fr0 := by
      funext t
      by_cases ht : t = p.header.timestamp
      · subst ht
        rw [if_pos rfl]
        exact F3.symm
      · rw [if_neg ht]
    rw [hFun]
  rw [e3]
  unfold step_flush
  simp only [F3]
  by_cases hsm : entry.seen_marker = true
  · rw [if_pos hsm]
    have hready : (FrameReassembler.mk ((A0.analyze p).2) (some p.header.ssrc) (some c)
        Fr0 G0).frame_ready_to_flush p.header.timestamp c = false :=
      (frame_ready_congr (FrameReassembler.mk ((A0.analyze p).2) (some p.header.ssrc)
          (some c) Fr0 G0)
        (FrameReassembler.mk A0 (some p.header.ssrc) (some c) Fr0 G0)
        p.header.timestamp c rfl).trans (F6 hsm)
    simp only [Option.getD_some, hready, Bool.false_eq_true, if_false]
  · rw [if_neg hsm]

/-- The inserted collector's map always holds the pushed packet keyed by its
sequence number. -/
theorem insertedEntry_packets (s : FrameReassembler) (p : RtpPacket) :
    ∃ base, (insertedEntry s p).packets =
      insertPkt { seq := p.header.sequence_number, payload := p.payload } base := by
  unfold insertedEntry
  simp only []
  split
  · exact ⟨_, rfl⟩
  · exact ⟨_, rfl⟩

/-- The inserted collector records the marker bit. -/
theorem insertedEntry_marker (s : FrameReassembler) (p : RtpPacket)
    (hm : p.header.marker = true) : (insertedEntry s p).seen_marker = true := by
  unfold insertedEntry
  simp only [hm, if_true]

/-- If a push returns nothing and leaves a collector at the packet's
timestamp, pushing the same packet again returns nothing and only advances
the analyzer. -/
theorem push_dup_second (s : FrameReassembler) (p : RtpPacket) (s' : FrameReassembler)
    (entry : FrameCollector)
    (hpush : s.push_packet p = (none, s'))
    (hent : s'.frames p.header.timestamp = some entry)
    (hlt : entry.packets.length < s'.config.max_buffered_packets_per_frame) :
    s'.push_packet p = (none, { s' with analyzer := (s'.analyzer.analyze p).2 }) := by
  have F1 : s'.current_ssrc = some p.header.ssrc := by
    have h := push_ssrc s p
    rw [hpush] at h
    exact h
  obtain ⟨c, F2⟩ : ∃ c, s'.codec = some c := by
    have h := push_codec_some s p
    rw [hpush] at h
    exact h
  have hpp : step_flush (step_insert (step_codec (step_ssrc s p) p) p) p = (none, s') := hpush
  have htf : (step_insert (step_codec (step_ssrc s p) p) p).frames p.header.timestamp =
      some (insertedEntry (step_codec (step_ssrc s p) p) p) := by
    show (fun t => if t = p.header.timestamp then
        some (insertedEntry (step_codec (step_ssrc s p) p) p)
      else (step_codec (step_ssrc s p) p).frames t) p.header.timestamp =
      some (insertedEntry (step_codec (step_ssrc s p) p) p)
    simp
  unfold step_flush at hpp
  simp only [htf] at hpp
  have key : step_insert (step_codec (step_ssrc s p) p) p = s' ∧
      ((insertedEntry (step_codec (step_ssrc s p) p) p).seen_marker = true →
        s'.frame_ready_to_flush p.header.timestamp c = false) := by
    by_cases hsm : (insertedEntry (step_codec (step_ssrc s p) p) p).seen_marker = true
    · rw [if_pos hsm] at hpp
      by_cases hrv : (step_insert (step_codec (step_ssrc s p) p) p).frame_ready_to_flush
          p.header.timestamp
          ((step_insert (step_codec (step_ssrc s p) p) p).codec.getD .Unknown) = true
      · rw [if_pos hrv] at hpp
        have h2 : ({ step_insert (step_codec (step_ssrc s p) p) p with
            frames := fun t => if t = p.header.timestamp then none
              else (step_insert (step_codec (step_ssrc s p) p) p).frames t } :
            FrameReassembler) = s' := congrArg Prod.snd hpp
        have hnone : s'.frames p.header.timestamp = none := by
          rw [← h2]
          simp
        rw [hent] at hnone
        cases hnone
      · rw [if_neg hrv] at hpp
        have hts : step_insert (step_codec (step_ssrc s p) p) p = s' :=
          congrArg Prod.snd hpp
        rw [hts] at hrv
        simp only [F2, Option.getD_some] at hrv
        refine ⟨hts, fun _ => ?_⟩
        cases hval : s'.frame_ready_to_flush p.header.timestamp c with
        | false => rfl
        | true => exact absurd hval hrv
    · rw [if_neg hsm] at hpp
      have hts : step_insert (step_codec (step_ssrc s p) p) p = s' :=
        congrArg Prod.snd hpp
      exact ⟨hts, fun h => absurd h hsm⟩
  obtain ⟨hts, F6pre⟩ := key
  have hE : s'.frames p.header.timestamp =
      some (insertedEntry (step_codec (step_ssrc s p) p) p) := by
    rw [← hts]
    exact htf
  have hEq : insertedEntry (step_codec (step_ssrc s p) p) p = entry :=
    Option.some.inj (hE.symm.trans hent)
  obtain ⟨base, hbase⟩ := insertedEntry_packets (step_codec (step_ssrc s p) p) p
  refine push_noop s' p entry base c F1 F2 hent hlt ?_ ?_ ?_
  · rw [← hEq]
    exact hbase
  · intro hm
    rw [← hEq]
    exact insertedEntry_marker _ p hm
  · intro hsm
    refine F6pre ?_
    rw [hEq]
    exact hsm

/-- C9, counterexample: a single-packet AVC frame (Single NAL 65, marker set)
pushed once emits the frame once, but pushing the same parsed packet twice
emits it twice — the first push removes the collector, so the duplicate opens
a new collector and completes it again; the overall sequence of emitted frames
is not unchanged by duplication. -/
theorem C9_duplicate_counterexample :
    (pushAll (FrameReassembler.new.set_codec .Avc) [mkPkt [0x65] true 0 0 1]).1 =
      [some (startCode ++ [0x65])] ∧
    (pushAll (FrameReassembler.new.set_codec .Avc)
        [mkPkt [0x65] true 0 0 1, mkPkt [0x65] true 0 0 1]).1 =
      [some (startCode ++ [0x65]), some (startCode ++ [0x65])] :=
  ⟨rfl, rfl⟩

/-- C9, amended: when the first push of a packet returns no frame and leaves
its collector in place below the buffering cap, pushing the same parsed packet
again returns no frame — the duplicate merely overwrites its own entry and
leaves every emission-relevant field unchanged — so inserting the duplicate
leaves the sequence of subsequently emitted frames unchanged. -/
theorem C9_duplicate_amended (s : FrameReassembler) (p : RtpPacket) (s' : FrameReassembler)
    (entry : FrameCollector) (qs : List RtpPacket)
    (hpush : s.push_packet p = (none, s'))
    (hent : s'.frames p.header.timestamp = some entry)
    (hlt : entry.packets.length < s'.config.max_buffered_packets_per_frame) :
    (s'.push_packet p).1 = none ∧
    (pushAll s' (p :: qs)).1 = none :: (pushAll s' qs).1 := by
  have h2 := push_dup_second s p s' entry hpush hent hlt
  constructor
  · rw [h2]
  · simp only [pushAll]
    rw [h2]
    simp only []
    congr 1
    obtain ⟨c, F2⟩ : ∃ c, s'.codec = some c := by
      have h := push_codec_some s p
      rw [hpush] at h
      exact h
    exact pushAll_obs qs _ s' c ⟨rfl, rfl, rfl, rfl⟩ F2

/-- C9, witness: the amended statement at a concrete AVC fragmentation start
whose first push buffers without emitting. -/
theorem C9_duplicate_amended_witness :
    ((((FrameReassembler.new.set_codec .Avc).push_packet
        (mkPkt [0x7C, 0x85, 0xAA] false 100 2 3)).2.push_packet
        (mkPkt [0x7C, 0x85, 0xAA] false 100 2 3)).1 = none) ∧
    (pushAll ((FrameReassembler.new.set_codec .Avc).push_packet
        (mkPkt [0x7C, 0x85, 0xAA] false 100 2 3)).2
      [mkPkt [0x7C, 0x85, 0xAA] false 100 2 3]).1 =
    none :: (pushAll ((FrameReassembler.new.set_codec .Avc).push_packet
        (mkPkt [0x7C, 0x85, 0xAA] false 100 2 3)).2 []).1 :=
  C9_duplicate_amended (FrameReassembler.new.set_codec .Avc)
    (mkPkt [0x7C, 0x85, 0xAA] false 100 2 3)
    ((FrameReassembler.new.set_codec .Avc).push_packet
      (mkPkt [0x7C, 0x85, 0xAA] false 100 2 3)).2
    { packets := [⟨100, [0x7C, 0x85, 0xAA]⟩], seen_marker := false } []
    rfl rfl (by decide)

/-- The aggregation loop's fuel is irrelevant as soon as it covers the bytes
after the current offset: with fuel payload.length it computes exactly the
source's while loop, whose exit condition coincides with fuel exhaustion. -/
theorem agg_loop_fuel (payload : List Nat) : ∀ (f1 f2 i : Nat),
    payload.length ≤ i + f1 → payload.length ≤ i + f2 →
    agg_loop payload f1 i = agg_loop payload f2 i := by
  intro f1
  induction f1 with
  | zero =>
    intro f2 i h1 h2
    cases f2 with
    | zero => rfl
    | succ f =>
      have hs : agg_step payload i = none := by
        unfold agg_step
        rw [if_neg (by omega)]
      simp [agg_loop, hs]
  | succ f ih =>
    intro f2 i h1 h2
    cases f2 with
    | zero =>
      have hs : agg_step payload i = none := by
        unfold agg_step
        rw [if_neg (by omega)]
      simp [agg_loop, hs]
    | succ f2' =>
      simp only [agg_loop]
      cases hs : agg_step payload i with
      | none => rfl
      | some v =>
        obtain ⟨j, chunk⟩ := v
        simp only []
        rcases agg_step_some hs with ⟨hij, hlen⟩ | ⟨hij, c, hc⟩ <;>
          rw [ih f2' j (by omega) (by omega)]
